import Mathlib

/-
Verification of the WrapGuard virtual network stack, routing engine and
syscall shim against their natural-language specification.

The definitions below are a shallow embedding of the Go sources
(`routing.go`, `network.go`) and of the C shim.  Go maps are modelled as
association lists; since Go's map iteration order is unspecified, every
function of the source that ranges over a map is parameterised by the
enumeration order (a permutation of the table), and theorems quantify over
those orders.  Go channels are modelled as FIFO lists with the capacity
checks the source performs (`select`/`default` drops).  Machine integers
are modelled as Nat/Int with explicit truncation (`% 2^w`) where the source
converts (`uint16(...)`, `uint32` wrap-around).
-/

namespace Wrapguard

/-- An IPv4 address, four octets, as stored in `net.IP` (4-byte form). -/
structure IPv4 where
  b0 : Nat
  b1 : Nat
  b2 : Nat
  b3 : Nat
deriving DecidableEq

/-- The 32-bit numeric value of an IPv4 address. -/
def IPv4.toNat (a : IPv4) : Nat :=
  a.b0 * 16777216 + a.b1 * 65536 + a.b2 * 256 + a.b3

/-- The four header octets of an address (`copy(hdr, ip.To4())`). -/
def IPv4.toBytes (a : IPv4) : List Nat :=
  [a.b0, a.b1, a.b2, a.b3]

/-- `netip.Prefix` restricted to IPv4: a (possibly non-canonical) address
together with a prefix length, as produced by `netip.ParsePrefix`. -/
structure Cidr where
  addr : Nat
  bits : Nat
deriving DecidableEq

/-- `netip.Prefix.Contains` for IPv4: the first `bits` bits agree. -/
def Cidr.containsAddr (c : Cidr) (a : IPv4) : Bool :=
  a.toNat / 2 ^ (32 - c.bits) = c.addr / 2 ^ (32 - c.bits)

/-- `PortRange` from routing.go. -/
structure PortRange where
  Start : Int
  End : Int
deriving DecidableEq

/-- `RoutingPolicy` from routing.go.  The Go field `DestinationCIDR` is the
textual CIDR; the model identifies a CIDR string with its parsed prefix
(string equality in `FindPeerForDestination` coincides with `Cidr` equality
because `netip.ParsePrefix` keeps the written address verbatim). -/
structure RoutingPolicy where
  destinationCIDR : Cidr
  protocol : String
  portRange : PortRange
  priority : Int
deriving DecidableEq

/-- `PeerConfig` from config.go, restricted to the fields the routing
engine reads.  `allowedIPs` carries the prefixes already parsed (the
Go constructor parses each string and skips invalid ones). -/
structure PeerConfig where
  publicKey : String
  allowedIPs : List Cidr
  routingPolicies : List RoutingPolicy
deriving DecidableEq

/-- `routeTable[cidr] = append(existing, peerIdx)`, creating the key at the
end on first insertion — the association list keeps keys in first-insertion
order, values in append order, exactly as the Go map contents. -/
def upsertRoute : List (Cidr × List Nat) → Cidr → Nat → List (Cidr × List Nat)
  | [], c, i => [(c, [i])]
  | (c', is) :: rest, c, i =>
      if c' = c then (c', is ++ [i]) :: rest else (c', is) :: upsertRoute rest c i

/-- The `routeTable` built by `NewRoutingEngine`: for each peer in order,
each routing policy registers the peer index under the policy's CIDR. -/
def buildRouteTable (peers : List PeerConfig) : List (Cidr × List Nat) :=
  (peers.enum).foldl
    (fun rt p => p.2.routingPolicies.foldl (fun rt' pol => upsertRoute rt' pol.destinationCIDR p.1) rt)
    []

/-- The `allowedIPs` map built by `NewRoutingEngine`: peer index to parsed
prefixes; a key exists only when the peer has at least one prefix. -/
def buildAllowedIPs (peers : List PeerConfig) : List (Nat × List Cidr) :=
  (peers.enum).foldl
    (fun ai p => if p.2.allowedIPs = [] then ai else ai ++ [(p.1, p.2.allowedIPs)])
    []

/-- The three `continue` guards of the inner policy loop of
`FindPeerForDestination`: string match on the CIDR, protocol filter, and
port-range filter (skipped entirely when `dstPort <= 0`). -/
def policyAcceptable (policy : RoutingPolicy) (cidr : Cidr) (protocol : String) (dstPort : Int) : Bool :=
  policy.destinationCIDR = cidr &&
  (policy.protocol = "any" || policy.protocol = protocol) &&
  !(dstPort > 0 && (dstPort < policy.portRange.Start || dstPort > policy.portRange.End))

/-- One step of the best-policy tracking: the accumulator is
`(bestPeer, bestPriority, bestSpecificity)`, updated exactly under the Go
condition `specificity > bestSpecificity || (specificity == bestSpecificity
&& policy.Priority > bestPriority)`. -/
def scanPolicy (cidr : Cidr) (specificity : Int) (peerIdx : Nat) (protocol : String)
    (dstPort : Int) (best : Int × Int × Int) (policy : RoutingPolicy) : Int × Int × Int :=
  if policyAcceptable policy cidr protocol dstPort then
    if specificity > best.2.2 || (specificity = best.2.2 && policy.priority > best.2.1) then
      ((peerIdx : Int), policy.priority, specificity)
    else best
  else best

/-- The loop over one route-table entry's peer indices; an index out of
range of the peer slice is skipped (`peerIdx >= len(r.peers)`). -/
def scanPeerIdx (peers : List PeerConfig) (cidr : Cidr) (specificity : Int) (protocol : String)
    (dstPort : Int) (best : Int × Int × Int) (peerIdx : Nat) : Int × Int × Int :=
  match peers[peerIdx]? with
  | none => best
  | some peer => peer.routingPolicies.foldl (scanPolicy cidr specificity peerIdx protocol dstPort) best

/-- The body of the outer loop of `FindPeerForDestination` for one
route-table entry, guarded by `prefix.Contains(addr)`. -/
def scanEntry (peers : List PeerConfig) (dstIP : IPv4) (protocol : String) (dstPort : Int)
    (best : Int × Int × Int) (entry : Cidr × List Nat) : Int × Int × Int :=
  if entry.1.containsAddr dstIP then
    entry.2.foldl (scanPeerIdx peers entry.1 (entry.1.bits : Int) protocol dstPort) best
  else best

/-- The `AllowedIPs` fallback loop: first enumerated peer one of whose
prefixes contains the destination. -/
def firstAllowed : List (Nat × List Cidr) → IPv4 → Option Nat
  | [], _ => none
  | (idx, ps) :: rest, a => if ps.any (fun p => p.containsAddr a) then some idx else firstAllowed rest a

/-- `FindPeerForDestination`, parameterised by the enumeration orders `rt`
and `ai` of the two Go maps (Go map iteration order is unspecified; a
theorem about the engine quantifies over permutations of the canonical
tables).  Returns the selected peer index, `none` for the Go `-1`. -/
def findPeerForDestination (peers : List PeerConfig) (rt : List (Cidr × List Nat))
    (ai : List (Nat × List Cidr)) (dstIP : IPv4) (dstPort : Int) (protocol : String) : Option Nat :=
  let best := rt.foldl (scanEntry peers dstIP protocol dstPort) (-1, -1, -1)
  if best.1 ≥ 0 then some best.1.toNat else firstAllowed ai dstIP

/-- Helper for writing literal addresses. -/
def mkIP (a b c d : Nat) : IPv4 := ⟨a, b, c, d⟩

/-- Helper for writing literal prefixes. -/
def mkCidr (a b c d bits : Nat) : Cidr := ⟨(mkIP a b c d).toNat, bits⟩

/-- The three-peer configuration of spec section 8: P1 with allowed
`0.0.0.0/0`, P2 with allowed `192.168.0.0/16` and policies
`192.168.1.0/24:tcp:80-443` priority 1 and `0.0.0.0/0:tcp:8080-9000`
priority 2, P3 with allowed `10.0.0.0/8` and policy `10.0.0.0/8:any:1-65535`
priority 0. -/
def demoPeers : List PeerConfig :=
  [ { publicKey := "P1", allowedIPs := [mkCidr 0 0 0 0 0], routingPolicies := [] },
    { publicKey := "P2", allowedIPs := [mkCidr 192 168 0 0 16],
      routingPolicies :=
        [ { destinationCIDR := mkCidr 192 168 1 0 24, protocol := "tcp",
            portRange := { Start := 80, End := 443 }, priority := 1 },
          { destinationCIDR := mkCidr 0 0 0 0 0, protocol := "tcp",
            portRange := { Start := 8080, End := 9000 }, priority := 2 } ] },
    { publicKey := "P3", allowedIPs := [mkCidr 10 0 0 0 8],
      routingPolicies :=
        [ { destinationCIDR := mkCidr 10 0 0 0 8, protocol := "any",
            portRange := { Start := 1, End := 65535 }, priority := 0 } ] } ]

/-! ## Virtual network stack (network.go)

Addresses: `net.TCPAddr` and `net.UDPAddr` both render as `"ip:port"`
through `String()`, which is the key of both Go maps involved
(`listeningSockets` and the connection matching); the model therefore
identifies an address with its (ip, port) pair — two addresses collide as
map keys exactly when the pairs are equal, regardless of transport. -/

/-- A socket address (the `"ip:port"` string of a `net.TCPAddr` /
`net.UDPAddr`). -/
structure SockAddr where
  ip : IPv4
  port : Nat
deriving DecidableEq

/-- The `"ip:port"` rendering shared by `net.TCPAddr.String` and
`net.UDPAddr.String` for IPv4 addresses. -/
def SockAddr.goString (a : SockAddr) : String :=
  toString a.ip.b0 ++ "." ++ toString a.ip.b1 ++ "." ++ toString a.ip.b2 ++ "."
    ++ toString a.ip.b3 ++ ":" ++ toString a.port

/-- `VirtualConnection` from network.go.  The channels `IncomingData` and
`OutgoingData` (capacity 100 each) are FIFO lists.  The Go field `Type` is
spelled `typ` (Lean reserves `Type`). -/
structure VirtualConnection where
  ID : Nat
  LocalAddr : Option SockAddr
  RemoteAddr : Option SockAddr
  typ : String
  State : String
  IncomingData : List (List Nat)
  OutgoingData : List (List Nat)
deriving DecidableEq

/-- `VirtualListener` from network.go; `AcceptQueue` is a channel of
capacity 10 holding the half-formed connections. -/
structure VirtualListener where
  Addr : SockAddr
  typ : String
  AcceptQueue : List VirtualConnection
deriving DecidableEq

/-- `VirtualNetworkStack` from network.go.  `connections` and
`listeningSockets` are Go maps, modelled as association lists in key
insertion order; `outgoingPackets` is a channel of capacity 1000 (sends on
it block rather than drop, so the model appends unconditionally);
`nextConnID` is a `uint32` counter. -/
structure VirtualNetworkStack where
  connections : List (Nat × VirtualConnection)
  listeningSockets : List (SockAddr × VirtualListener)
  outgoingPackets : List (List Nat)
  nextConnID : Nat
  localIP : IPv4
deriving DecidableEq

/-- Go map read `m[k]`. -/
def lookupA {α β : Type} [DecidableEq α] : List (α × β) → α → Option β
  | [], _ => none
  | (k, v) :: rest, k' => if k = k' then some v else lookupA rest k'

/-- Go map write `m[k] = v`: replace in place, or append a new key. -/
def insertA {α β : Type} [DecidableEq α] : List (α × β) → α → β → List (α × β)
  | [], k, v => [(k, v)]
  | (k', v') :: rest, k, v =>
      if k' = k then (k', v) :: rest else (k', v') :: insertA rest k v

/-- Go map delete `delete(m, k)`. -/
def removeA {α β : Type} [DecidableEq α] : List (α × β) → α → List (α × β)
  | [], _ => []
  | (k', v') :: rest, k => if k' = k then rest else (k', v') :: removeA rest k

/-- `NewVirtualNetworkStack` (with the local address zeroed; `SetLocalAddress`
installs the WireGuard interface address). -/
def newVirtualNetworkStack : VirtualNetworkStack :=
  { connections := [], listeningSockets := [], outgoingPackets := [],
    nextConnID := 0, localIP := mkIP 0 0 0 0 }

/-- `SetLocalAddress`. -/
def setLocalAddress (s : VirtualNetworkStack) (ip : IPv4) : VirtualNetworkStack :=
  { s with localIP := ip }

/-- `CreateConnection`: `connID := atomic.AddUint32(&s.nextConnID, 1)` (the
incremented value, wrapping mod 2^32), fresh empty queues, state
`"created"`; the connection is stored in the table.  Returns the stack and
the new connection. -/
def createConnection (s : VirtualNetworkStack) (connType : String) :
    VirtualNetworkStack × VirtualConnection :=
  let connID := (s.nextConnID + 1) % 2 ^ 32
  let conn : VirtualConnection :=
    { ID := connID, LocalAddr := none, RemoteAddr := none, typ := connType,
      State := "created", IncomingData := [], OutgoingData := [] }
  ({ s with connections := insertA s.connections connID conn, nextConnID := connID }, conn)

/-- The error string `fmt.Errorf("connection %d not found", connID)`. -/
def errNotFound (connID : Nat) : String :=
  "connection " ++ toString connID ++ " not found"

/-- `BindConnection`: existence check only, then `conn.LocalAddr = addr`. -/
def bindConnection (s : VirtualNetworkStack) (connID : Nat) (addr : SockAddr) :
    Except String VirtualNetworkStack :=
  match lookupA s.connections connID with
  | none => .error (errNotFound connID)
  | some conn =>
      .ok { s with connections := insertA s.connections connID { conn with LocalAddr := some addr } }

/-- `ListenConnection`: requires a bound local address; installs a listener
under the key `conn.LocalAddr.String()` (replacing any listener already at
that key, whatever its transport) and moves the connection to state
`"listening"`. -/
def listenConnection (s : VirtualNetworkStack) (connID : Nat) :
    Except String VirtualNetworkStack :=
  match lookupA s.connections connID with
  | none => .error (errNotFound connID)
  | some conn =>
      match conn.LocalAddr with
      | none => .error "connection must be bound before listening"
      | some la =>
          let listener : VirtualListener := { Addr := la, typ := conn.typ, AcceptQueue := [] }
          .ok { s with
                listeningSockets := insertA s.listeningSockets la listener,
                connections := insertA s.connections connID { conn with State := "listening" } }

/-- `createTCPPacket`: a 20-octet IPv4 header (version 4/IHL 5, total
length truncated to 16 bits, Don't-Fragment, TTL 64, protocol 6, zero
checksum) followed by a 20-octet TCP header (big-endian ports truncated to
16 bits, data offset 5, the SYN/ACK/FIN flag byte, window 65535) and the
payload.  A connection without addresses would make the Go code dereference
a nil pointer; the model substitutes the zero address, which no theorem
relies on. -/
def createTCPPacket (conn : VirtualConnection) (data : List Nat) (syn ack fin : Bool) : List Nat :=
  let la := conn.LocalAddr.getD { ip := mkIP 0 0 0 0, port := 0 }
  let ra := conn.RemoteAddr.getD { ip := mkIP 0 0 0 0, port := 0 }
  let totalLen := (20 + 20 + data.length) % 65536
  let ipHeader : List Nat :=
    [0x45, 0, totalLen / 256, totalLen % 256, 0, 0, 0x40, 0, 64, 6, 0, 0]
      ++ la.ip.toBytes ++ ra.ip.toBytes
  let srcPort := la.port % 65536
  let dstPort := ra.port % 65536
  let flags := (if syn then 0x02 else 0) + (if ack then 0x10 else 0) + (if fin then 0x01 else 0)
  let tcpHeader : List Nat :=
    [srcPort / 256, srcPort % 256, dstPort / 256, dstPort % 256,
     0, 0, 0, 0, 0, 0, 0, 0, 0x50, flags, 255, 255, 0, 0, 0, 0]
  ipHeader ++ tcpHeader ++ data

/-- `createUDPPacket`: 20-octet IPv4 header (TTL 64, protocol 17) followed
by an 8-octet UDP header and the payload. -/
def createUDPPacket (conn : VirtualConnection) (data : List Nat) : List Nat :=
  let la := conn.LocalAddr.getD { ip := mkIP 0 0 0 0, port := 0 }
  let ra := conn.RemoteAddr.getD { ip := mkIP 0 0 0 0, port := 0 }
  let totalLen := (20 + 8 + data.length) % 65536
  let ipHeader : List Nat :=
    [0x45, 0, totalLen / 256, totalLen % 256, 0, 0, 0, 0, 64, 17, 0, 0]
      ++ la.ip.toBytes ++ ra.ip.toBytes
  let udpLen := (8 + data.length) % 65536
  let udpHeader : List Nat :=
    [la.port % 65536 / 256, la.port % 65536 % 256,
     ra.port % 65536 / 256, ra.port % 65536 % 256,
     udpLen / 256, udpLen % 256, 0, 0]
  ipHeader ++ udpHeader ++ data

/-- `ConnectConnection`: a connection without a local endpoint gets the
ephemeral port `30000 + connID % 30000` on the stack's local IP; the remote
endpoint is recorded, the state becomes `"connected"`, and for a stream
connection a SYN packet is queued. -/
def connectConnection (s : VirtualNetworkStack) (connID : Nat) (remoteAddr : SockAddr) :
    Except String VirtualNetworkStack :=
  match lookupA s.connections connID with
  | none => .error (errNotFound connID)
  | some conn =>
      let conn1 :=
        match conn.LocalAddr with
        | some _ => conn
        | none => { conn with LocalAddr := some { ip := s.localIP, port := 30000 + connID % 30000 } }
      let conn2 := { conn1 with RemoteAddr := some remoteAddr, State := "connected" }
      let s1 := { s with connections := insertA s.connections connID conn2 }
      if conn2.typ = "tcp" then
        .ok { s1 with outgoingPackets := s1.outgoingPackets ++ [createTCPPacket conn2 [] true false false] }
      else .ok s1

/-- `SendData`: requires state `"connected"`; enqueues on the outbound
channel, failing fast when its 100 slots are full. -/
def sendData (s : VirtualNetworkStack) (connID : Nat) (data : List Nat) :
    Except String VirtualNetworkStack :=
  match lookupA s.connections connID with
  | none => .error (errNotFound connID)
  | some conn =>
      if conn.State ≠ "connected" then .error "connection not in connected state"
      else if conn.OutgoingData.length < 100 then
        let conn1 := { conn with OutgoingData := conn.OutgoingData ++ [data] }
        .ok { s with connections := insertA s.connections connID conn1 }
      else .error "outgoing buffer full"

/-- `ReceiveData`: pops the head of the inbound queue, or reports that no
data is available. -/
def receiveData (s : VirtualNetworkStack) (connID : Nat) :
    Except String (VirtualNetworkStack × List Nat) :=
  match lookupA s.connections connID with
  | none => .error (errNotFound connID)
  | some conn =>
      match conn.IncomingData with
      | [] => .error "no data available"
      | d :: rest =>
          .ok ({ s with connections := insertA s.connections connID { conn with IncomingData := rest } }, d)

/-- `AcceptConnection`: looks the listener up by endpoint and pops the head
of its accept queue. -/
def acceptConnection (s : VirtualNetworkStack) (listenAddr : SockAddr) :
    Except String (VirtualNetworkStack × VirtualConnection) :=
  match lookupA s.listeningSockets listenAddr with
  | none => .error ("no listener on " ++ listenAddr.goString)
  | some listener =>
      match listener.AcceptQueue with
      | [] => .error "no pending connections"
      | c :: rest =>
          let listener1 := { listener with AcceptQueue := rest }
          .ok ({ s with listeningSockets := insertA s.listeningSockets listenAddr listener1 }, c)

/-- `CloseConnection`: emits a FIN for a connected stream connection,
removes the table entry, and removes the listener when the connection was
listening. -/
def closeConnection (s : VirtualNetworkStack) (connID : Nat) :
    Except String VirtualNetworkStack :=
  match lookupA s.connections connID with
  | none => .error (errNotFound connID)
  | some conn =>
      let s1 :=
        if conn.typ = "tcp" ∧ conn.State = "connected" then
          { s with outgoingPackets := s.outgoingPackets ++ [createTCPPacket conn [] false false true] }
        else s
      let s2 := { s1 with connections := removeA s1.connections connID }
      if conn.State = "listening" ∧ conn.LocalAddr.isSome then
        .ok { s2 with listeningSockets := removeA s2.listeningSockets (conn.LocalAddr.getD ⟨mkIP 0 0 0 0, 0⟩) }
      else .ok s2

/-- `handleConnectionPackets`: the per-connection pump turns each queued
payload into exactly one packet (TCP or UDP according to the connection's
transport), in queue order. -/
def handleConnectionPackets (conn : VirtualConnection) : List (List Nat) :=
  conn.OutgoingData.map (fun data =>
    if conn.typ = "tcp" then createTCPPacket conn data false true false
    else createUDPPacket conn data)

/-- The connection-table scan of `handleIncomingTCP` / `handleIncomingUDP`:
first entry whose connection satisfies the predicate.  (Go ranges over the
`connections` map, whose iteration order is unspecified; the theorems below
only use it in states where at most one connection matches, so the choice
of order is immaterial there.) -/
def findConn (l : List (Nat × VirtualConnection)) (p : VirtualConnection → Bool) :
    Option (Nat × VirtualConnection) :=
  l.find? (fun e => p e.2)

/-- The non-SYN path of `handleIncomingTCP`: match an existing connection
by (local, remote) endpoint and enqueue the bytes past the TCP data offset
(silently dropped when the 100-slot queue is full — no counter exists). -/
def handleIncomingTCPExisting (s : VirtualNetworkStack) (localAddr remoteAddr : SockAddr)
    (payload : List Nat) : Except String VirtualNetworkStack :=
  match findConn s.connections (fun c =>
      c.typ = "tcp" && c.LocalAddr = some localAddr && c.RemoteAddr = some remoteAddr) with
  | none => .error "no connection found for TCP packet"
  | some (connID, conn) =>
      let headerLen := payload.getD 12 0 / 16 % 16 * 4
      if payload.length > headerLen then
        let data := payload.drop headerLen
        if conn.IncomingData.length < 100 then
          let conn1 := { conn with IncomingData := conn.IncomingData ++ [data] }
          .ok { s with connections := insertA s.connections connID conn1 }
        else .ok s
      else .ok s

/-- `handleIncomingTCP`: ports and flags are read from the TCP header; a
SYN to a listening endpoint materializes a `"connected"` connection (placed
in the accept queue only when its 10 slots are not full) and emits a
SYN+ACK; otherwise the packet is matched against (local, remote) and any
bytes past the TCP data offset are enqueued when the 100-slot inbound
queue has room.  The FIN bit is never inspected. -/
def handleIncomingTCP (s : VirtualNetworkStack) (srcIP dstIP : IPv4) (payload : List Nat) :
    Except String VirtualNetworkStack :=
  if payload.length < 20 then .error "TCP header too short"
  else
    let srcPort := payload.getD 0 0 * 256 + payload.getD 1 0
    let dstPort := payload.getD 2 0 * 256 + payload.getD 3 0
    let flags := payload.getD 13 0
    let localAddr : SockAddr := { ip := dstIP, port := dstPort }
    let remoteAddr : SockAddr := { ip := srcIP, port := srcPort }
    match lookupA s.listeningSockets localAddr with
    | some listener =>
        if flags % 4 / 2 = 1 then
          -- SYN for a listener: CreateConnection then mutate the shared
          -- object, so the table entry carries the final field values.
          let res := createConnection s "tcp"
          let newConn : VirtualConnection :=
            { ID := res.2.ID, LocalAddr := some localAddr, RemoteAddr := some remoteAddr,
              typ := res.2.typ, State := "connected", IncomingData := res.2.IncomingData,
              OutgoingData := res.2.OutgoingData }
          let s1 := { res.1 with connections := insertA res.1.connections newConn.ID newConn }
          let s2 :=
            if listener.AcceptQueue.length < 10 then
              let listener1 := { listener with AcceptQueue := listener.AcceptQueue ++ [newConn] }
              { s1 with listeningSockets := insertA s1.listeningSockets localAddr listener1 }
            else s1
          .ok { s2 with outgoingPackets := s2.outgoingPackets ++ [createTCPPacket newConn [] true true false] }
        else handleIncomingTCPExisting s localAddr remoteAddr payload
    | none => handleIncomingTCPExisting s localAddr remoteAddr payload

/-- `handleIncomingUDP`: matched by local endpoint only; the source
endpoint always overwrites the connection's remote address; the payload is
enqueued when the inbound queue has room. -/
def handleIncomingUDP (s : VirtualNetworkStack) (srcIP dstIP : IPv4) (payload : List Nat) :
    Except String VirtualNetworkStack :=
  if payload.length < 8 then .error "UDP header too short"
  else
    let srcPort := payload.getD 0 0 * 256 + payload.getD 1 0
    let dstPort := payload.getD 2 0 * 256 + payload.getD 3 0
    let localAddr : SockAddr := { ip := dstIP, port := dstPort }
    let remoteAddr : SockAddr := { ip := srcIP, port := srcPort }
    match findConn s.connections (fun c => c.typ = "udp" && c.LocalAddr = some localAddr) with
    | none => .error "no connection found for UDP packet"
    | some (connID, conn) =>
        let data := payload.drop 8
        let newIncoming :=
          if conn.IncomingData.length < 100 then conn.IncomingData ++ [data] else conn.IncomingData
        let conn1 := { conn with RemoteAddr := some remoteAddr, IncomingData := newIncoming }
        .ok { s with connections := insertA s.connections connID conn1 }

/-- `DeliverIncomingPacket`: IPv4 header parsing and dispatch on the
protocol octet. -/
def deliverIncomingPacket (s : VirtualNetworkStack) (packet : List Nat) :
    Except String VirtualNetworkStack :=
  if packet.length < 20 then .error "packet too short"
  else if packet.getD 0 0 / 16 ≠ 4 then .error "only IPv4 supported currently"
  else
    let protocol := packet.getD 9 0
    let srcIP : IPv4 := ⟨packet.getD 12 0, packet.getD 13 0, packet.getD 14 0, packet.getD 15 0⟩
    let dstIP : IPv4 := ⟨packet.getD 16 0, packet.getD 17 0, packet.getD 18 0, packet.getD 19 0⟩
    let headerLen := packet.getD 0 0 % 16 * 4
    if packet.length < headerLen then .error "invalid IP header length"
    else
      let payload := packet.drop headerLen
      if protocol = 6 then handleIncomingTCP s srcIP dstIP payload
      else if protocol = 17 then handleIncomingUDP s srcIP dstIP payload
      else .error ("unsupported protocol: " ++ toString protocol)

/-! ## Syscall shim descriptor table (the C shim)

`static FDMapping fd_mappings[1024]; static int next_fake_fd = 1000;`
Slots record the connection id (`0` both for an empty slot and for the
"not ours" answer of `get_conn_id`).  The C counter is a signed 32-bit
`int` whose overflow is undefined behaviour; the model uses an unbounded
integer, and statements that need the counter in range carry the explicit
no-overflow bound as a hypothesis. -/

/-- The shim's process-global descriptor state. -/
structure ShimState where
  fd_mappings : Nat → Nat
  next_fake_fd : Int

/-- State after `init_intercept`: zeroed mapping array, counter at 1000. -/
def initShimState : ShimState := { fd_mappings := fun _ => 0, next_fake_fd := 1000 }

/-- `map_conn_to_fd`: claim the next descriptor; record the connection id
only when the descriptor is a valid index of the 1024-slot array. -/
def map_conn_to_fd (st : ShimState) (conn_id : Nat) : ShimState × Int :=
  let fd := st.next_fake_fd
  if 0 ≤ fd ∧ fd < 1024 then
    ({ fd_mappings := fun i => if i = fd.toNat then conn_id else st.fd_mappings i,
       next_fake_fd := st.next_fake_fd + 1 }, fd)
  else ({ st with next_fake_fd := st.next_fake_fd + 1 }, fd)

/-- `get_conn_id`: descriptors outside `[1000, 1024)` are never ours. -/
def get_conn_id (st : ShimState) (fd : Int) : Nat :=
  if fd < 1000 ∨ 1024 ≤ fd then 0 else st.fd_mappings fd.toNat

/-- A sequence of intercepted `socket` calls: map each connection id in
turn, collecting the synthesized descriptors. -/
def mapMany (st : ShimState) : List Nat → ShimState × List Int
  | [] => (st, [])
  | c :: cs =>
      let r := map_conn_to_fd st c
      let rest := mapMany r.1 cs
      (rest.1, r.2 :: rest.2)

/-! ## Concrete scenario states used by the boundary-scenario theorems -/

/-- The stack left behind by creating one connection on a fresh stack and
closing it again. -/
def emptiedStack : VirtualNetworkStack :=
  { connections := [], listeningSockets := [], outgoingPackets := [],
    nextConnID := 1, localIP := mkIP 0 0 0 0 }

/-- The listening endpoint `10.150.0.2:8080` of the accept scenario. -/
def listenEP : SockAddr := { ip := mkIP 10 150 0 2, port := 8080 }

/-- One of the half-formed connections pending on the demo listener. -/
def pendingConn (i : Nat) : VirtualConnection :=
  { ID := i, LocalAddr := some listenEP,
    RemoteAddr := some { ip := mkIP 10 150 0 1, port := 50000 + i }, typ := "tcp",
    State := "connected", IncomingData := [], OutgoingData := [] }

/-- A stack whose listener at `10.150.0.2:8080` has its accept queue at the
channel capacity of 10. -/
def fullListenerStack : VirtualNetworkStack :=
  { connections := (List.range 10).map (fun i => (i + 1, pendingConn (i + 1))),
    listeningSockets :=
      [(listenEP, { Addr := listenEP, typ := "tcp",
                    AcceptQueue := (List.range 10).map (fun i => pendingConn (i + 1)) })],
    outgoingPackets := [], nextConnID := 10, localIP := mkIP 10 150 0 2 }

/-- A TCP header with the SYN flag from `10.150.0.1:40000` to port 8080. -/
def synPayload : List Nat :=
  [156, 64, 31, 144, 0, 0, 0, 0, 0, 0, 0, 0, 0x50, 0x02, 255, 255, 0, 0, 0, 0]

/-- A connected stream connection whose inbound queue already holds 100
payloads (`[0], [1], …, [99]`). -/
def fullQueueConn : VirtualConnection :=
  { ID := 1, LocalAddr := some { ip := mkIP 10 150 0 2, port := 30001 },
    RemoteAddr := some { ip := mkIP 10 0 0 3, port := 80 }, typ := "tcp",
    State := "connected", IncomingData := (List.range 100).map (fun i => [i]),
    OutgoingData := [] }

/-- The stack holding just `fullQueueConn`. -/
def fullQueueStack : VirtualNetworkStack :=
  { connections := [(1, fullQueueConn)], listeningSockets := [], outgoingPackets := [],
    nextConnID := 1, localIP := mkIP 10 150 0 2 }

/-- A TCP header plus one data byte from `10.0.0.3:80` to port 30001 — the
101st inbound payload for `fullQueueConn`. -/
def dataPayload101 : List Nat :=
  [0, 80, 117, 49, 0, 0, 0, 0, 0, 0, 0, 0, 0x50, 0x10, 255, 255, 0, 0, 0, 0, 200]

/-- A connected stream connection `10.150.0.2:8080 ↔ 10.150.0.1:40000`. -/
def finConn : VirtualConnection :=
  { ID := 1, LocalAddr := some { ip := mkIP 10 150 0 2, port := 8080 },
    RemoteAddr := some { ip := mkIP 10 150 0 1, port := 40000 }, typ := "tcp",
    State := "connected", IncomingData := [], OutgoingData := [] }

/-- The stack holding just `finConn` (no listener at its endpoint). -/
def finStack : VirtualNetworkStack :=
  { connections := [(1, finConn)], listeningSockets := [], outgoingPackets := [],
    nextConnID := 1, localIP := mkIP 10 150 0 2 }

/-- A bare TCP header (20 bytes, no data) with only the FIN flag set, from
`10.150.0.1:40000` to port 8080. -/
def finPayload : List Nat :=
  [156, 64, 31, 144, 0, 0, 0, 0, 0, 0, 0, 0, 0x50, 0x01, 255, 255, 0, 0, 0, 0]

/-- A stream connection and a datagram connection both bound to
`10.150.0.2:8080`, neither listening yet. -/
def twoBoundStack : VirtualNetworkStack :=
  { connections :=
      [(1, { ID := 1, LocalAddr := some listenEP, RemoteAddr := none, typ := "tcp",
             State := "created", IncomingData := [], OutgoingData := [] }),
       (2, { ID := 2, LocalAddr := some listenEP, RemoteAddr := none, typ := "udp",
             State := "created", IncomingData := [], OutgoingData := [] })],
    listeningSockets := [], outgoingPackets := [], nextConnID := 2,
    localIP := mkIP 10 150 0 2 }

/-- The full IPv4 packet carrying `synPayload` from `10.150.0.1` to
`10.150.0.2` (total length 40, protocol 6). -/
def synPacket : List Nat :=
  [0x45, 0, 0, 40, 0, 0, 0x40, 0, 64, 6, 0, 0, 10, 150, 0, 1, 10, 150, 0, 2] ++ synPayload

/-- The full IPv4 packet carrying `dataPayload101` from `10.0.0.3` to
`10.150.0.2` (total length 41, protocol 6). -/
def dataPacket101 : List Nat :=
  [0x45, 0, 0, 41, 0, 0, 0x40, 0, 64, 6, 0, 0, 10, 0, 0, 3, 10, 150, 0, 2] ++ dataPayload101

/-- The full IPv4 packet carrying `finPayload` from `10.150.0.1` to
`10.150.0.2`. -/
def finPacket : List Nat :=
  [0x45, 0, 0, 40, 0, 0, 0x40, 0, 64, 6, 0, 0, 10, 150, 0, 1, 10, 150, 0, 2] ++ finPayload

/-- Project the state out of a non-failing stack operation (scenario
plumbing; the accompanying conjunct always certifies the `.ok`). -/
def unwrapOk (e : Except String VirtualNetworkStack) (d : VirtualNetworkStack) :
    VirtualNetworkStack :=
  match e with
  | .ok s => s
  | .error _ => d

/-- Project the result of a non-failing `acceptConnection`. -/
def unwrapOkPair (e : Except String (VirtualNetworkStack × VirtualConnection))
    (d : VirtualNetworkStack × VirtualConnection) : VirtualNetworkStack × VirtualConnection :=
  match e with
  | .ok r => r
  | .error _ => d

/-- Whether a stack operation succeeded. -/
def isOkE {α : Type} (e : Except String α) : Bool :=
  match e with
  | .ok _ => true
  | .error _ => false

/-- The state after the stream connection 1 and then the datagram
connection 2 of `twoBoundStack` both call listen on `10.150.0.2:8080`. -/
def afterTwoListens : VirtualNetworkStack :=
  unwrapOk (listenConnection (unwrapOk (listenConnection twoBoundStack 1) twoBoundStack) 2)
    twoBoundStack

/-- The state after delivering `synPacket` to `fullListenerStack`. -/
def afterSynFull : VirtualNetworkStack :=
  unwrapOk (deliverIncomingPacket fullListenerStack synPacket) fullListenerStack

/-- The connection that the SYN path of `handleIncomingTCP` materializes
for an inbound packet `payload` from `srcIP` to `dstIP` on stack `s`. -/
def synNewConn (s : VirtualNetworkStack) (srcIP dstIP : IPv4) (payload : List Nat) :
    VirtualConnection :=
  { ID := (s.nextConnID + 1) % 2 ^ 32,
    LocalAddr := some { ip := dstIP, port := payload.getD 2 0 * 256 + payload.getD 3 0 },
    RemoteAddr := some { ip := srcIP, port := payload.getD 0 0 * 256 + payload.getD 1 0 },
    typ := "tcp", State := "connected", IncomingData := [], OutgoingData := [] }

/-- A bound listening connection at `10.150.0.2:8080` whose accept queue is
empty. -/
def emptyListenerStack : VirtualNetworkStack :=
  { connections :=
      [(1, { ID := 1, LocalAddr := some listenEP, RemoteAddr := none, typ := "tcp",
             State := "listening", IncomingData := [], OutgoingData := [] })],
    listeningSockets := [(listenEP, { Addr := listenEP, typ := "tcp", AcceptQueue := [] })],
    outgoingPackets := [], nextConnID := 1, localIP := mkIP 10 150 0 2 }

/-- What the SYN delivery of the C3 counterexample materializes on the
full-queue stack. -/
def newSynConn : VirtualConnection :=
  { ID := 11, LocalAddr := some listenEP,
    RemoteAddr := some { ip := mkIP 10 150 0 1, port := 40000 }, typ := "tcp",
    State := "connected", IncomingData := [], OutgoingData := [] }

/-! ## Routing-lookup specification predicates (for claim C1) -/

/-- Lexicographic comparison of (specificity, priority) pairs, the order
the best-policy tracking of `FindPeerForDestination` maximises. -/
def lexLE (a b : Int × Int) : Prop :=
  a.1 < b.1 ∨ (a.1 = b.1 ∧ a.2 ≤ b.2)

/-- Peer `j` has a policy under route-table entry `entry` that matches the
lookup `(dstIP, protocol, dstPort)` with declared priority `prio`. -/
def EntryMatch (peers : List PeerConfig) (dstIP : IPv4) (dstPort : Int) (protocol : String)
    (entry : Cidr × List Nat) (j : Nat) (prio : Int) : Prop :=
  entry.1.containsAddr dstIP = true ∧ j ∈ entry.2 ∧
    ∃ peer, peers[j]? = some peer ∧
      ∃ policy ∈ peer.routingPolicies, policyAcceptable policy entry.1 protocol dstPort = true ∧
        prio = policy.priority

/-- Peer `j` has a policy registered in the route table `rt` that matches
the lookup `(dstIP, protocol, dstPort)` with the given declared priority
and prefix specificity. -/
def PolicyMatchIn (peers : List PeerConfig) (rt : List (Cidr × List Nat)) (dstIP : IPv4)
    (dstPort : Int) (protocol : String) (j : Nat) (prio spec : Int) : Prop :=
  ∃ entry ∈ rt, EntryMatch peers dstIP dstPort protocol entry j prio ∧
    spec = (entry.1.bits : Int)

/-- An `allowedIPs` enumeration that visits the P2 entry first — one of the
orders Go's map iteration may produce for the section-8 configuration. -/
def aiSwapped : List (Nat × List Cidr) :=
  [(1, [mkCidr 192 168 0 0 16]), (0, [mkCidr 0 0 0 0 0]), (2, [mkCidr 10 0 0 0 8])]

/-- Two peers whose policies tie on (prefix_bits, priority): both CIDR
strings are /24 prefixes containing 1.2.3.4 (the second written with a
non-canonical address, as `netip.ParsePrefix` preserves), both `any`
protocol, full port range, priority 5. -/
def tiePeers : List PeerConfig :=
  [ { publicKey := "A", allowedIPs := [],
      routingPolicies :=
        [ { destinationCIDR := mkCidr 1 2 3 0 24, protocol := "any",
            portRange := { Start := 1, End := 65535 }, priority := 5 } ] },
    { publicKey := "B", allowedIPs := [],
      routingPolicies :=
        [ { destinationCIDR := mkCidr 1 2 3 9 24, protocol := "any",
            portRange := { Start := 1, End := 65535 }, priority := 5 } ] } ]

/-- The reversed route-table enumeration for `tiePeers` — again an order Go
may produce. -/
def tieRtSwapped : List (Cidr × List Nat) :=
  [(mkCidr 1 2 3 9 24, [1]), (mkCidr 1 2 3 0 24, [0])]

/-! ## Association-list lemmas (Go map semantics) -/

theorem lookupA_insertA_self {α β : Type} [DecidableEq α] (l : List (α × β)) (k : α) (v : β) :
    lookupA (insertA l k v) k = some v := by
  induction l with
  | nil => simp [insertA, lookupA]
  | cons hd tl ih =>
      obtain ⟨k', v'⟩ := hd
      by_cases hk : k' = k <;> simp [insertA, lookupA, hk, ih]

theorem lookupA_insertA_ne {α β : Type} [DecidableEq α] (l : List (α × β)) (k k' : α) (v : β)
    (h : k ≠ k') : lookupA (insertA l k v) k' = lookupA l k' := by
  induction l with
  | nil => simp [insertA, lookupA, h]
  | cons hd tl ih =>
      obtain ⟨k0, v0⟩ := hd
      by_cases hk : k0 = k
      · subst hk; simp [insertA, lookupA, h]
      · simp [insertA, hk, lookupA]
        by_cases hk' : k0 = k' <;> simp [hk', ih]

theorem lookupA_removeA_self {α β : Type} [DecidableEq α] (l : List (α × β)) (k : α)
    (h : (l.map Prod.fst).Nodup) : lookupA (removeA l k) k = none := by
  induction l with
  | nil => simp [removeA, lookupA]
  | cons hd tl ih =>
      obtain ⟨k0, v0⟩ := hd
      simp only [List.map_cons, List.nodup_cons] at h
      by_cases hk : k0 = k
      · subst hk
        simp only [removeA, if_pos rfl]
        -- k does not occur among tl's keys, so the lookup misses
        clear ih
        induction tl with
        | nil => simp [lookupA]
        | cons hd2 tl2 ih2 =>
            obtain ⟨k1, v1⟩ := hd2
            simp only [List.map_cons, List.mem_cons, not_or] at h
            have hne : k1 ≠ k0 := fun he => h.1.1 he.symm
            simp only [lookupA, if_neg hne]
            exact ih2 ⟨h.1.2, (List.nodup_cons.mp h.2).2⟩
      · simpa [removeA, hk, lookupA] using ih h.2

theorem lookupA_removeA_ne {α β : Type} [DecidableEq α] (l : List (α × β)) (k k' : α)
    (h : k ≠ k') : lookupA (removeA l k) k' = lookupA l k' := by
  induction l with
  | nil => simp [removeA, lookupA]
  | cons hd tl ih =>
      obtain ⟨k0, v0⟩ := hd
      by_cases hk : k0 = k
      · subst hk; simp [removeA, lookupA, h]
      · simp only [removeA, if_neg hk, lookupA]
        by_cases hk' : k0 = k' <;> simp [hk', ih]

theorem lookupA_eq_none_iff {α β : Type} [DecidableEq α] (l : List (α × β)) (k : α) :
    lookupA l k = none ↔ k ∉ l.map Prod.fst := by
  induction l with
  | nil => simp [lookupA]
  | cons hd tl ih =>
      obtain ⟨k0, v0⟩ := hd
      by_cases hk : k0 = k
      · subst hk; simp [lookupA]
      · simp [lookupA, hk, ih, Ne.symm hk]

theorem keys_insertA_eq {α β : Type} [DecidableEq α] (l : List (α × β)) (k : α) (v : β) :
    (insertA l k v).map Prod.fst =
      if (lookupA l k).isNone then l.map Prod.fst ++ [k] else l.map Prod.fst := by
  induction l with
  | nil => simp [insertA, lookupA]
  | cons hd tl ih =>
      obtain ⟨k0, v0⟩ := hd
      by_cases hk : k0 = k
      · subst hk; simp [insertA, lookupA]
      · simp only [insertA, if_neg hk, List.map_cons, lookupA, hk, if_false, ih]
        by_cases hl : (lookupA tl k).isNone <;> simp [hl, hk]

theorem removeA_sublist {α β : Type} [DecidableEq α] (l : List (α × β)) (k : α) :
    List.Sublist (removeA l k) l := by
  induction l with
  | nil => simp [removeA]
  | cons hd tl ih =>
      obtain ⟨k0, v0⟩ := hd
      by_cases hk : k0 = k
      · subst hk
        simp only [removeA, if_pos rfl]
        exact List.sublist_cons_self _ _
      · simpa [removeA, hk] using List.Sublist.cons₂ (k0, v0) ih

theorem keys_insertA {α β : Type} [DecidableEq α] (l : List (α × β)) (k : α) (v : β)
    (h : (l.map Prod.fst).Nodup) : ((insertA l k v).map Prod.fst).Nodup := by
  rw [keys_insertA_eq]
  by_cases hl : (lookupA l k).isNone
  · simp only [hl, if_true]
    have hk : k ∉ l.map Prod.fst :=
      (lookupA_eq_none_iff l k).mp (Option.isNone_iff_eq_none.mp hl)
    exact h.append (List.nodup_singleton k)
      (fun a ha hb => hk ((List.mem_singleton.mp hb) ▸ ha))
  · simpa [hl] using h

theorem keys_removeA {α β : Type} [DecidableEq α] (l : List (α × β)) (k : α)
    (h : (l.map Prod.fst).Nodup) : ((removeA l k).map Prod.fst).Nodup :=
  h.sublist ((removeA_sublist l k).map Prod.fst)

theorem findConn_lookupA (l : List (Nat × VirtualConnection)) (p : VirtualConnection → Bool)
    (k : Nat) (c : VirtualConnection) (h : findConn l p = some (k, c))
    (hnd : (l.map Prod.fst).Nodup) : lookupA l k = some c := by
  induction l with
  | nil => simp [findConn] at h
  | cons hd tl ih =>
      obtain ⟨k0, c0⟩ := hd
      simp only [List.map_cons, List.nodup_cons] at hnd
      by_cases hp : p c0
      · rw [findConn, List.find?_cons_of_pos _ (by simpa using hp)] at h
        injection h with h'
        obtain ⟨rfl, rfl⟩ := Prod.mk.injEq .. ▸ h'
        simp [lookupA]
      · rw [findConn, List.find?_cons_of_neg _ (by simpa using hp)] at h
        have hmem : k ∈ tl.map Prod.fst := by
          have := List.mem_of_find?_eq_some h
          exact List.mem_map.mpr ⟨(k, c), this, rfl⟩
        have hne : k0 ≠ k := fun he => hnd.1 (he ▸ hmem)
        rw [lookupA, if_neg hne]
        exact ih h hnd.2

/-- The data path of `handleIncomingTCP` for an existing connection never
changes the connection's state, transport or endpoints: at most it appends
the data bytes to the inbound queue. -/
theorem handleIncomingTCPExisting_preserves (s : VirtualNetworkStack) (la ra : SockAddr)
    (payload : List Nat) (connID : Nat) (conn : VirtualConnection)
    (hnd : (s.connections.map Prod.fst).Nodup)
    (hfind : findConn s.connections (fun c =>
        c.typ = "tcp" && c.LocalAddr = some la && c.RemoteAddr = some ra) = some (connID, conn)) :
    ∃ s', handleIncomingTCPExisting s la ra payload = .ok s' ∧
      ∃ conn', lookupA s'.connections connID = some conn' ∧
        conn'.State = conn.State ∧ conn'.typ = conn.typ ∧
        conn'.LocalAddr = conn.LocalAddr ∧ conn'.RemoteAddr = conn.RemoteAddr ∧
        (conn'.IncomingData = conn.IncomingData ∨
          conn'.IncomingData =
            conn.IncomingData ++ [payload.drop (payload.getD 12 0 / 16 % 16 * 4)]) := by
  simp only [handleIncomingTCPExisting, hfind]
  by_cases hdata : payload.length > payload.getD 12 0 / 16 % 16 * 4
  · simp only [hdata, if_true]
    by_cases hq : conn.IncomingData.length < 100
    · simp only [hq, if_true]
      exact ⟨_, rfl, _, lookupA_insertA_self _ _ _, rfl, rfl, rfl, rfl, Or.inr rfl⟩
    · simp only [hq, if_false]
      exact ⟨_, rfl, _, findConn_lookupA _ _ _ _ hfind hnd, rfl, rfl, rfl, rfl, Or.inl rfl⟩
  · simp only [hdata, if_false]
    exact ⟨_, rfl, _, findConn_lookupA _ _ _ _ hfind hnd, rfl, rfl, rfl, rfl, Or.inl rfl⟩

/-- The existing-connection data path never touches the listener table. -/
theorem handleIncomingTCPExisting_listeners (s : VirtualNetworkStack) (la ra : SockAddr)
    (payload : List Nat) (s' : VirtualNetworkStack)
    (hok : handleIncomingTCPExisting s la ra payload = .ok s') :
    s'.listeningSockets = s.listeningSockets := by
  simp only [handleIncomingTCPExisting] at hok
  split at hok
  · exact Except.noConfusion hok
  · split at hok
    · split at hok <;> (injection hok with h; rw [← h])
    · injection hok with h; rw [← h]

theorem createConnection_listeners (s : VirtualNetworkStack) (t : String) :
    (createConnection s t).1.listeningSockets = s.listeningSockets := rfl

/-! ## Claim theorems -/

/-- C6 counterexample: `finStack` holds one connected stream connection
with a drained (empty) inbound queue; delivering the FIN-equivalent packet
to it leaves the entire stack unchanged — in particular the connection's
state is still `"connected"`, not `"closed"`. -/
theorem C6_counterexample :
    deliverIncomingPacket finStack finPacket = .ok finStack ∧
    lookupA finStack.connections 1 = some finConn ∧
    finConn.IncomingData = [] ∧
    finConn.typ = "tcp" ∧ finConn.State = "connected" ∧ ¬ finConn.State = "closed" :=
  ⟨by rfl, by rfl, by rfl, by rfl, by rfl, by decide⟩

/-- C6 (amended): `handleIncomingTCP` never inspects the FIN bit — for a
non-SYN inbound segment matching a connection, delivery succeeds and the
connection's state (and transport and endpoints) is exactly what it was;
no transition to `closed` ever happens, drained queue or not. -/
theorem C6_fin_leaves_connection_open (s : VirtualNetworkStack) (srcIP dstIP : IPv4)
    (payload : List Nat) (connID : Nat) (conn : VirtualConnection)
    (hnd : (s.connections.map Prod.fst).Nodup)
    (hlen : 20 ≤ payload.length)
    (hsyn : ¬ payload.getD 13 0 % 4 / 2 = 1)
    (hfind : findConn s.connections (fun c =>
        c.typ = "tcp" &&
        c.LocalAddr = some { ip := dstIP, port := payload.getD 2 0 * 256 + payload.getD 3 0 } &&
        c.RemoteAddr = some { ip := srcIP, port := payload.getD 0 0 * 256 + payload.getD 1 0 }) =
      some (connID, conn)) :
    ∃ s', handleIncomingTCP s srcIP dstIP payload = .ok s' ∧
      ∃ conn', lookupA s'.connections connID = some conn' ∧
        conn'.State = conn.State ∧ conn'.typ = conn.typ ∧
        conn'.LocalAddr = conn.LocalAddr ∧ conn'.RemoteAddr = conn.RemoteAddr ∧
        (conn'.IncomingData = conn.IncomingData ∨
          conn'.IncomingData =
            conn.IncomingData ++ [payload.drop (payload.getD 12 0 / 16 % 16 * 4)]) := by
  have hnl : ¬ payload.length < 20 := by omega
  simp only [handleIncomingTCP, hnl, if_false]
  cases hl : lookupA s.listeningSockets
      { ip := dstIP, port := payload.getD 2 0 * 256 + payload.getD 3 0 } with
  | none => exact handleIncomingTCPExisting_preserves s _ _ payload connID conn hnd hfind
  | some listener =>
      simp only [hsyn, if_false]
      exact handleIncomingTCPExisting_preserves s _ _ payload connID conn hnd hfind

/-- C6 witness: the amended theorem applied to the concrete FIN delivery of
the counterexample state. -/
theorem C6_fin_leaves_connection_open_witness :
    ∃ s', handleIncomingTCP finStack (mkIP 10 150 0 1) (mkIP 10 150 0 2) finPayload = .ok s' ∧
      ∃ conn', lookupA s'.connections 1 = some conn' ∧
        conn'.State = finConn.State ∧ conn'.typ = finConn.typ ∧
        conn'.LocalAddr = finConn.LocalAddr ∧ conn'.RemoteAddr = finConn.RemoteAddr ∧
        (conn'.IncomingData = finConn.IncomingData ∨
          conn'.IncomingData =
            finConn.IncomingData ++ [finPayload.drop (finPayload.getD 12 0 / 16 % 16 * 4)]) :=
  C6_fin_leaves_connection_open finStack (mkIP 10 150 0 1) (mkIP 10 150 0 2) finPayload 1 finConn
    (by decide) (by decide) (by decide) (by rfl)

/-- C7: on `connect`, a stream connection without a bound local endpoint is
assigned the local ephemeral port `30000 + connID % 30000`, which lies in
[30000, 60000] and is the same deterministic function of the connection id
on every call. -/
theorem C7_connect_ephemeral_port (s : VirtualNetworkStack) (connID : Nat) (remote : SockAddr)
    (conn : VirtualConnection) (h : lookupA s.connections connID = some conn)
    (hla : conn.LocalAddr = none) (ht : conn.typ = "tcp") :
    ∃ s', connectConnection s connID remote = .ok s' ∧
      ∃ conn', lookupA s'.connections connID = some conn' ∧
        conn'.LocalAddr = some { ip := s.localIP, port := 30000 + connID % 30000 } ∧
        30000 ≤ 30000 + connID % 30000 ∧ 30000 + connID % 30000 ≤ 60000 := by
  have hb : connID % 30000 < 30000 := Nat.mod_lt _ (by norm_num)
  simp only [connectConnection, h, hla, ht]
  exact ⟨_, rfl, _, lookupA_insertA_self _ _ _, rfl, by omega, by omega⟩

/-- C7 witness: a concrete connection (id 1, no local endpoint) gets port
30001 ∈ [30000, 60000]. -/
theorem C7_connect_ephemeral_port_witness :
    ∃ s', connectConnection
        { connections := [(1, { ID := 1, LocalAddr := none, RemoteAddr := none, typ := "tcp",
                                State := "created", IncomingData := [], OutgoingData := [] })],
          listeningSockets := [], outgoingPackets := [], nextConnID := 1,
          localIP := mkIP 10 150 0 2 } 1 { ip := mkIP 10 0 0 3, port := 80 } = .ok s' ∧
      ∃ conn', lookupA s'.connections 1 = some conn' ∧
        conn'.LocalAddr = some { ip := mkIP 10 150 0 2, port := 30000 + 1 % 30000 } ∧
        30000 ≤ 30000 + 1 % 30000 ∧ 30000 + 1 % 30000 ≤ 60000 :=
  C7_connect_ephemeral_port _ 1 _
    { ID := 1, LocalAddr := none, RemoteAddr := none, typ := "tcp",
      State := "created", IncomingData := [], OutgoingData := [] } rfl rfl rfl

/-- C10: `BindConnection` performs no address-in-use check — it fails
exactly on an unknown id, and otherwise records the endpoint, even when
another existing connection is already bound to the same endpoint. -/
theorem C10_bind_no_address_in_use (s : VirtualNetworkStack) (connID : Nat) (addr : SockAddr) :
    (lookupA s.connections connID = none →
      bindConnection s connID addr = .error (errNotFound connID)) ∧
    (∀ conn, lookupA s.connections connID = some conn →
      ∃ s', bindConnection s connID addr = .ok s' ∧
        ∃ conn', lookupA s'.connections connID = some conn' ∧ conn'.LocalAddr = some addr) := by
  refine ⟨fun h => by simp [bindConnection, h], fun conn h => ?_⟩
  simp only [bindConnection, h]
  exact ⟨_, rfl, _, lookupA_insertA_self _ _ _, rfl⟩

/-- C10 witness: connection 1 is already bound to `10.150.0.2:8080`, and
binding connection 2 to the very same endpoint still succeeds and records
it. -/
theorem C10_bind_no_address_in_use_witness :
    ∃ s', bindConnection
        { connections :=
            [(1, { ID := 1, LocalAddr := some { ip := mkIP 10 150 0 2, port := 8080 },
                   RemoteAddr := none, typ := "tcp",
                   State := "created", IncomingData := [], OutgoingData := [] }),
             (2, { ID := 2, LocalAddr := none, RemoteAddr := none, typ := "tcp",
                   State := "created", IncomingData := [], OutgoingData := [] })],
          listeningSockets := [], outgoingPackets := [], nextConnID := 2,
          localIP := mkIP 10 150 0 2 } 2 { ip := mkIP 10 150 0 2, port := 8080 } = .ok s' ∧
      ∃ conn', lookupA s'.connections 2 = some conn' ∧
        conn'.LocalAddr = some { ip := mkIP 10 150 0 2, port := 8080 } :=
  (C10_bind_no_address_in_use _ 2 _).2
    { ID := 2, LocalAddr := none, RemoteAddr := none, typ := "tcp",
      State := "created", IncomingData := [], OutgoingData := [] } rfl

/-- `createTCPPacket` reads only the connection's addresses, so replacing
the outbound queue does not change the packet (definitional). -/
theorem createTCPPacket_outgoing_irrel (conn : VirtualConnection) (q : List (List Nat))
    (d : List Nat) (syn ack fin : Bool) :
    createTCPPacket { conn with OutgoingData := q } d syn ack fin =
      createTCPPacket conn d syn ack fin := rfl

/-- C5: a successful `close` removes the connection from the table; on a
state where the id is absent, every operation taking the id — a second
close, bind, listen, connect, send, recv — returns the unknown-id error
("connection N not found") and nothing succeeds or panics; concretely,
creating a connection and closing it twice makes the second close fail
with that error. -/
theorem C5_close_then_unknown_id (s : VirtualNetworkStack) (connID : Nat) :
    (∀ s', (s.connections.map Prod.fst).Nodup → closeConnection s connID = .ok s' →
       lookupA s'.connections connID = none) ∧
    (lookupA s.connections connID = none →
       closeConnection s connID = .error (errNotFound connID) ∧
       (∀ addr, bindConnection s connID addr = .error (errNotFound connID)) ∧
       listenConnection s connID = .error (errNotFound connID) ∧
       (∀ remote, connectConnection s connID remote = .error (errNotFound connID)) ∧
       (∀ data, sendData s connID data = .error (errNotFound connID)) ∧
       receiveData s connID = .error (errNotFound connID)) ∧
    (∃ s2, closeConnection (createConnection newVirtualNetworkStack "tcp").1
         (createConnection newVirtualNetworkStack "tcp").2.ID = .ok s2 ∧
       closeConnection s2 (createConnection newVirtualNetworkStack "tcp").2.ID =
         .error (errNotFound (createConnection newVirtualNetworkStack "tcp").2.ID)) := by
  refine ⟨fun s' hnd hok => ?_, fun h => ?_, ?_⟩
  · simp only [closeConnection] at hok
    split at hok
    · exact Except.noConfusion hok
    · split at hok <;> split at hok <;>
        (injection hok with h; rw [← h]; exact lookupA_removeA_self _ _ hnd)
  · exact ⟨by simp [closeConnection, h], fun addr => by simp [bindConnection, h],
      by simp [listenConnection, h], fun remote => by simp [connectConnection, h],
      fun data => by simp [sendData, h], by simp [receiveData, h]⟩
  · exact ⟨emptiedStack, by rfl, by rfl⟩

/-- C5 witness: closing the freshly created connection 1 removes it — the
lookup after close misses. -/
theorem C5_close_then_unknown_id_witness :
    lookupA emptiedStack.connections 1 = none :=
  (C5_close_then_unknown_id (createConnection newVirtualNetworkStack "tcp").1 1).1
    emptiedStack (by decide) (by rfl)

/-- C2: sending a payload on a connected stream connection produces exactly
one outbound packet — the per-connection pump maps each queued payload to
one TCP packet — whose IPv4 header is exactly 20 octets with total length
`(40 + n) % 2^16`, the Don't-Fragment bit, TTL 64, protocol 6 and the two
addresses, whose TCP header carries the ports big-endian with the ACK flag
and window 65535, and whose payload is exactly the bytes sent; in
particular the connection to `10.0.0.3:80` sending the bytes of
`"GET / \x5cr\x5cn\x5cr\x5cn"` yields exactly that one packet. -/
theorem C2_send_exactly_one_packet (conn : VirtualConnection) (la ra : SockAddr)
    (data : List Nat) (q : List (List Nat))
    (ht : conn.typ = "tcp") (hla : conn.LocalAddr = some la) (hra : conn.RemoteAddr = some ra) :
    (handleConnectionPackets { conn with OutgoingData := q ++ [data] } =
       handleConnectionPackets { conn with OutgoingData := q }
         ++ [createTCPPacket conn data false true false]) ∧
    ((createTCPPacket conn data false true false).length = 40 + data.length) ∧
    ((createTCPPacket conn data false true false).take 20 =
       [0x45, 0, (20 + 20 + data.length) % 65536 / 256, (20 + 20 + data.length) % 65536 % 256,
        0, 0, 0x40, 0, 64, 6, 0, 0] ++ la.ip.toBytes ++ ra.ip.toBytes) ∧
    (((createTCPPacket conn data false true false).drop 20).take 20 =
       [la.port % 65536 / 256, la.port % 65536 % 256, ra.port % 65536 / 256, ra.port % 65536 % 256,
        0, 0, 0, 0, 0, 0, 0, 0, 0x50, 0x10, 255, 255, 0, 0, 0, 0]) ∧
    ((createTCPPacket conn data false true false).drop 40 = data) ∧
    (handleConnectionPackets
        { ID := 1, LocalAddr := some { ip := mkIP 10 150 0 2, port := 30001 },
          RemoteAddr := some { ip := mkIP 10 0 0 3, port := 80 }, typ := "tcp",
          State := "connected", IncomingData := [],
          OutgoingData := [[71, 69, 84, 32, 47, 32, 13, 10, 13, 10]] } =
      [[0x45, 0, 0, 50, 0, 0, 0x40, 0, 64, 6, 0, 0, 10, 150, 0, 2, 10, 0, 0, 3,
        117, 49, 0, 80, 0, 0, 0, 0, 0, 0, 0, 0, 0x50, 0x10, 255, 255, 0, 0, 0, 0,
        71, 69, 84, 32, 47, 32, 13, 10, 13, 10]]) := by
  refine ⟨?_, ?_, ?_, ?_, ?_, by decide⟩
  · simp [handleConnectionPackets, ht, createTCPPacket, hla, hra]
  · simp [createTCPPacket, hla, hra, IPv4.toBytes]
    omega
  · simp [createTCPPacket, hla, hra, IPv4.toBytes]
  · simp [createTCPPacket, hla, hra, IPv4.toBytes]
  · simp [createTCPPacket, hla, hra, IPv4.toBytes]

/-- C2 witness: the general part instantiated on the concrete connection to
`10.0.0.3:80` with the 10-byte request payload and an empty queue. -/
theorem C2_send_exactly_one_packet_witness :
    handleConnectionPackets
        { ID := 1, LocalAddr := some { ip := mkIP 10 150 0 2, port := 30001 },
          RemoteAddr := some { ip := mkIP 10 0 0 3, port := 80 }, typ := "tcp",
          State := "connected", IncomingData := [],
          OutgoingData := [] ++ [[71, 69, 84, 32, 47, 32, 13, 10, 13, 10]] } =
      handleConnectionPackets
        { ID := 1, LocalAddr := some { ip := mkIP 10 150 0 2, port := 30001 },
          RemoteAddr := some { ip := mkIP 10 0 0 3, port := 80 }, typ := "tcp",
          State := "connected", IncomingData := [], OutgoingData := ([] : List (List Nat)) }
        ++ [createTCPPacket
            { ID := 1, LocalAddr := some { ip := mkIP 10 150 0 2, port := 30001 },
              RemoteAddr := some { ip := mkIP 10 0 0 3, port := 80 }, typ := "tcp",
              State := "connected", IncomingData := [], OutgoingData := [] }
            [71, 69, 84, 32, 47, 32, 13, 10, 13, 10] false true false] :=
  let c : VirtualConnection :=
    { ID := 1, LocalAddr := some { ip := mkIP 10 150 0 2, port := 30001 },
      RemoteAddr := some { ip := mkIP 10 0 0 3, port := 80 }, typ := "tcp",
      State := "connected", IncomingData := [], OutgoingData := [] }
  (C2_send_exactly_one_packet c { ip := mkIP 10 150 0 2, port := 30001 }
    { ip := mkIP 10 0 0 3, port := 80 }
    [71, 69, 84, 32, 47, 32, 13, 10, 13, 10] [] rfl rfl rfl).1

/-- C4 counterexample: `fullQueueConn`'s inbound queue holds 100 payloads
(the channel capacity); delivering a 101st payload leaves the entire stack
— every field of every structure — unchanged, so no drop counter of any
kind increments: the stack has no such counter. -/
theorem C4_counterexample :
    fullQueueConn.IncomingData.length = 100 ∧
    deliverIncomingPacket fullQueueStack dataPacket101 = .ok fullQueueStack :=
  ⟨by decide, by rfl⟩

/-- C4 (amended): the per-connection inbound queue has capacity 100:
a fresh connection starts empty, delivery appends the payload at the tail
while fewer than 100 payloads are queued, delivery to a full queue returns
the state unchanged (silent drop, with no counter — nothing in the state
changes), and `recv` pops the head, so the 100 queued payloads come back
first, in delivery order. -/
theorem C4_inbound_queue_capacity :
    (∀ s connType, (createConnection s connType).2.IncomingData = []) ∧
    (∀ s la ra payload connID conn,
      findConn s.connections (fun c =>
          c.typ = "tcp" && c.LocalAddr = some la && c.RemoteAddr = some ra) =
        some (connID, conn) →
      payload.length > payload.getD 12 0 / 16 % 16 * 4 →
      conn.IncomingData.length < 100 →
      handleIncomingTCPExisting s la ra payload =
        .ok { s with connections := insertA s.connections connID ({ conn with IncomingData := conn.IncomingData ++ [payload.drop (payload.getD 12 0 / 16 % 16 * 4)] }) }) ∧
    (∀ s la ra payload connID conn,
      findConn s.connections (fun c =>
          c.typ = "tcp" && c.LocalAddr = some la && c.RemoteAddr = some ra) =
        some (connID, conn) →
      ¬ conn.IncomingData.length < 100 →
      handleIncomingTCPExisting s la ra payload = .ok s) ∧
    (∀ s connID conn d rest, lookupA s.connections connID = some conn →
      conn.IncomingData = d :: rest →
      receiveData s connID =
        .ok ({ s with connections := insertA s.connections connID ({ conn with IncomingData := rest }) }, d)) := by
  refine ⟨fun s connType => rfl, fun s la ra payload connID conn hfind hdata hq => ?_,
    fun s la ra payload connID conn hfind hq => ?_, fun s connID conn d rest hl hq => ?_⟩
  · simp only [handleIncomingTCPExisting, hfind, hdata, if_true, hq]
  · simp only [handleIncomingTCPExisting, hfind, hq, if_false]
    split <;> rfl
  · simp only [receiveData, hl, hq]

/-- C4 witness: the amended theorem's full-queue clause applied to the
concrete 100-deep queue, and its pop clause applied to the same state. -/
theorem C4_inbound_queue_capacity_witness :
    handleIncomingTCPExisting fullQueueStack
        { ip := mkIP 10 150 0 2, port := 30001 } { ip := mkIP 10 0 0 3, port := 80 }
        dataPayload101 = .ok fullQueueStack ∧
    receiveData fullQueueStack 1 =
      .ok ({ fullQueueStack with connections := insertA fullQueueStack.connections 1 ({ fullQueueConn with IncomingData := (List.range 99).map (fun i => [i + 1]) }) }, [0]) := by
  constructor
  · exact C4_inbound_queue_capacity.2.2.1 fullQueueStack
      { ip := mkIP 10 150 0 2, port := 30001 } { ip := mkIP 10 0 0 3, port := 80 }
      dataPayload101 1 fullQueueConn (by rfl) (by decide)
  · have := C4_inbound_queue_capacity.2.2.2 fullQueueStack 1 fullQueueConn [0]
      ((List.range 99).map (fun i => [i + 1])) (by rfl) (by decide)
    exact this

/-- C8 counterexample: in `twoBoundStack`, the stream connection 1 and the
datagram connection 2 are both bound to `10.150.0.2:8080`; after both call
listen, the listener table holds exactly one entry for that endpoint and it
is the datagram one — the stream listener was replaced, so the two do not
coexist. -/
theorem C8_counterexample :
    isOkE (listenConnection twoBoundStack 1) = true ∧
    isOkE (listenConnection (unwrapOk (listenConnection twoBoundStack 1) twoBoundStack) 2) = true ∧
    afterTwoListens.listeningSockets =
      [(listenEP, { Addr := listenEP, typ := "udp", AcceptQueue := [] })] :=
  ⟨by rfl, by rfl, by rfl⟩

/-- C8 (amended): the listener table is keyed by the local endpoint string
alone, so key-uniqueness — at most one listener per endpoint, a fortiori at
most one per (endpoint, transport) — holds at every state with distinct
keys and is preserved by every operation; but `listen` on an endpoint
replaces whatever listener that endpoint had, whatever its transport:
stream and datagram listeners on one endpoint never coexist. -/
theorem C8_one_listener_per_endpoint :
    (∀ s connID conn la, lookupA s.connections connID = some conn →
      conn.LocalAddr = some la →
      ∃ s', listenConnection s connID = .ok s' ∧
        s'.listeningSockets = insertA s.listeningSockets la ({ Addr := la, typ := conn.typ, AcceptQueue := [] }) ∧
        lookupA s'.listeningSockets la = some { Addr := la, typ := conn.typ, AcceptQueue := [] }) ∧
    (∀ s connType, (createConnection s connType).1.listeningSockets = s.listeningSockets) ∧
    (∀ s connID a s', bindConnection s connID a = .ok s' →
      s'.listeningSockets = s.listeningSockets) ∧
    (∀ s connID r s', connectConnection s connID r = .ok s' →
      s'.listeningSockets = s.listeningSockets) ∧
    (∀ s connID d s', sendData s connID d = .ok s' →
      s'.listeningSockets = s.listeningSockets) ∧
    (∀ s connID r, receiveData s connID = .ok r →
      r.1.listeningSockets = s.listeningSockets) ∧
    (∀ s a b payload s', handleIncomingUDP s a b payload = .ok s' →
      s'.listeningSockets = s.listeningSockets) ∧
    (∀ s connID s', (s.listeningSockets.map Prod.fst).Nodup →
      listenConnection s connID = .ok s' → (s'.listeningSockets.map Prod.fst).Nodup) ∧
    (∀ s connID s', (s.listeningSockets.map Prod.fst).Nodup →
      closeConnection s connID = .ok s' → (s'.listeningSockets.map Prod.fst).Nodup) ∧
    (∀ s a r, (s.listeningSockets.map Prod.fst).Nodup →
      acceptConnection s a = .ok r → (r.1.listeningSockets.map Prod.fst).Nodup) ∧
    (∀ s a b payload s', (s.listeningSockets.map Prod.fst).Nodup →
      handleIncomingTCP s a b payload = .ok s' → (s'.listeningSockets.map Prod.fst).Nodup) := by
  refine ⟨fun s connID conn la h hla => ?_, fun s connType => rfl,
    fun s connID a s' hok => ?_, fun s connID r s' hok => ?_, fun s connID d s' hok => ?_,
    fun s connID r hok => ?_, fun s a b payload s' hok => ?_,
    fun s connID s' hnd hok => ?_, fun s connID s' hnd hok => ?_,
    fun s a r hnd hok => ?_, fun s a b payload s' hnd hok => ?_⟩
  · simp only [listenConnection, h, hla]
    exact ⟨_, rfl, rfl, lookupA_insertA_self _ _ _⟩
  · simp only [bindConnection] at hok
    split at hok
    · exact Except.noConfusion hok
    · injection hok with h; rw [← h]
  · simp only [connectConnection] at hok
    split at hok
    · exact Except.noConfusion hok
    · split at hok <;> split at hok <;> (injection hok with h; rw [← h])
  · simp only [sendData] at hok
    split at hok
    · exact Except.noConfusion hok
    · split at hok
      · exact Except.noConfusion hok
      · split at hok
        · injection hok with h; rw [← h]
        · exact Except.noConfusion hok
  · simp only [receiveData] at hok
    split at hok
    · exact Except.noConfusion hok
    · split at hok
      · exact Except.noConfusion hok
      · injection hok with h; rw [← h]
  · simp only [handleIncomingUDP] at hok
    split at hok
    · exact Except.noConfusion hok
    · split at hok
      · exact Except.noConfusion hok
      · injection hok with h; rw [← h]
  · simp only [listenConnection] at hok
    split at hok
    · exact Except.noConfusion hok
    · split at hok
      · exact Except.noConfusion hok
      · injection hok with h; rw [← h]
        exact keys_insertA _ _ _ hnd
  · simp only [closeConnection] at hok
    split at hok
    · exact Except.noConfusion hok
    · split at hok <;> split at hok <;> (injection hok with h; rw [← h]) <;>
        first
          | exact keys_removeA _ _ hnd
          | exact hnd
  · simp only [acceptConnection] at hok
    split at hok
    · exact Except.noConfusion hok
    · split at hok
      · exact Except.noConfusion hok
      · injection hok with h; rw [← h]
        exact keys_insertA _ _ _ hnd
  · simp only [handleIncomingTCP] at hok
    split at hok
    · exact Except.noConfusion hok
    · split at hok
      · split at hok
        · split at hok <;> (injection hok with h; rw [← h])
          · simpa only [createConnection_listeners] using keys_insertA _ _ _ hnd
          · simpa only [createConnection_listeners] using hnd
        · rw [handleIncomingTCPExisting_listeners _ _ _ _ _ hok]
          exact hnd
      · rw [handleIncomingTCPExisting_listeners _ _ _ _ _ hok]
        exact hnd

/-- C8 witness: the replacement clause applied after the stream listen of
the counterexample state — the datagram connection's listen replaces the
stream listener at `10.150.0.2:8080` with a listener of type `"udp"`. -/
theorem C8_one_listener_per_endpoint_witness :
    ∃ s', listenConnection (unwrapOk (listenConnection twoBoundStack 1) twoBoundStack) 2 = .ok s' ∧
      s'.listeningSockets = insertA (unwrapOk (listenConnection twoBoundStack 1) twoBoundStack).listeningSockets listenEP ({ Addr := listenEP, typ := "udp", AcceptQueue := [] }) ∧
      lookupA s'.listeningSockets listenEP = some { Addr := listenEP, typ := "udp", AcceptQueue := [] } :=
  C8_one_listener_per_endpoint.1 (unwrapOk (listenConnection twoBoundStack 1) twoBoundStack) 2
    { ID := 2, LocalAddr := some listenEP, RemoteAddr := none, typ := "udp",
      State := "created", IncomingData := [], OutgoingData := [] } listenEP (by rfl) (by rfl)

/-- C3 counterexample: the listener's accept queue is full (10 pending
connections); delivering a SYN addressed to it still materializes a new
connected connection (id 11) with the packet's source as remote endpoint,
but the listener table — including the accept queue — is unchanged, and a
subsequent accept returns the oldest pending connection, not the new one
(whose remote endpoint differs from the packet source). -/
theorem C3_counterexample :
    isOkE (deliverIncomingPacket fullListenerStack synPacket) = true ∧
    lookupA afterSynFull.connections 11 = some newSynConn ∧
    afterSynFull.listeningSockets = fullListenerStack.listeningSockets ∧
    isOkE (acceptConnection afterSynFull listenEP) = true ∧
    (unwrapOkPair (acceptConnection afterSynFull listenEP) (afterSynFull, newSynConn)).2 = pendingConn 1 ∧
    ¬ pendingConn 1 = newSynConn :=
  ⟨by rfl, by rfl, by rfl, by rfl, by rfl, by decide⟩

/-- C3 (amended): an inbound SYN addressed to a listening endpoint
materializes a new connection in `connected` state whose remote endpoint is
the packet's source, emits the SYN+ACK-equivalent packet, and — provided
the accept queue (capacity 10) is not full — places the connection in that
queue; if the queue was empty, a subsequent accept on the endpoint returns
exactly that connection. -/
theorem C3_syn_materializes_connection (s : VirtualNetworkStack) (srcIP dstIP : IPv4)
    (payload : List Nat) (listener : VirtualListener)
    (hlen : 20 ≤ payload.length)
    (hsyn : payload.getD 13 0 % 4 / 2 = 1)
    (hl : lookupA s.listeningSockets
        { ip := dstIP, port := payload.getD 2 0 * 256 + payload.getD 3 0 } = some listener)
    (hq : listener.AcceptQueue.length < 10) :
    ∃ s', handleIncomingTCP s srcIP dstIP payload = .ok s' ∧
      lookupA s'.connections ((s.nextConnID + 1) % 2 ^ 32) =
        some (synNewConn s srcIP dstIP payload) ∧
      lookupA s'.listeningSockets
          { ip := dstIP, port := payload.getD 2 0 * 256 + payload.getD 3 0 } =
        some { listener with AcceptQueue := listener.AcceptQueue ++ [synNewConn s srcIP dstIP payload] } ∧
      s'.outgoingPackets =
        s.outgoingPackets ++ [createTCPPacket (synNewConn s srcIP dstIP payload) [] true true false] ∧
      (listener.AcceptQueue = [] →
        ∃ r, acceptConnection s'
            { ip := dstIP, port := payload.getD 2 0 * 256 + payload.getD 3 0 } = .ok r ∧
          r.2 = synNewConn s srcIP dstIP payload) := by
  have hnl : ¬ payload.length < 20 := by omega
  simp only [handleIncomingTCP, hnl, if_false, hl, hsyn, eq_self_iff_true, if_true, hq]
  refine ⟨_, rfl, ?_, ?_, ?_, fun hempty => ?_⟩
  · exact lookupA_insertA_self _ _ _
  · exact lookupA_insertA_self _ _ _
  · rfl
  · simp only [acceptConnection, lookupA_insertA_self, hempty, List.nil_append]
    exact ⟨_, rfl, rfl⟩

/-- C3 witness: the amended theorem applied to the empty-queue listener at
`10.150.0.2:8080` and the concrete SYN packet payload. -/
theorem C3_syn_materializes_connection_witness :
    ∃ s', handleIncomingTCP emptyListenerStack (mkIP 10 150 0 1) (mkIP 10 150 0 2)
        synPayload = .ok s' ∧
      lookupA s'.connections ((emptyListenerStack.nextConnID + 1) % 2 ^ 32) =
        some (synNewConn emptyListenerStack (mkIP 10 150 0 1) (mkIP 10 150 0 2) synPayload) ∧
      lookupA s'.listeningSockets
          { ip := mkIP 10 150 0 2, port := synPayload.getD 2 0 * 256 + synPayload.getD 3 0 } =
        some { Addr := listenEP, typ := "tcp",
               AcceptQueue := [] ++ [synNewConn emptyListenerStack (mkIP 10 150 0 1) (mkIP 10 150 0 2) synPayload] } ∧
      s'.outgoingPackets =
        emptyListenerStack.outgoingPackets ++
          [createTCPPacket (synNewConn emptyListenerStack (mkIP 10 150 0 1) (mkIP 10 150 0 2) synPayload) [] true true false] ∧
      (([] : List VirtualConnection) = [] →
        ∃ r, acceptConnection s'
            { ip := mkIP 10 150 0 2, port := synPayload.getD 2 0 * 256 + synPayload.getD 3 0 } = .ok r ∧
          r.2 = synNewConn emptyListenerStack (mkIP 10 150 0 1) (mkIP 10 150 0 2) synPayload) :=
  C3_syn_materializes_connection emptyListenerStack (mkIP 10 150 0 1) (mkIP 10 150 0 2)
    synPayload { Addr := listenEP, typ := "tcp", AcceptQueue := [] }
    (by decide) (by decide) (by rfl) (by decide)

/-! ## Shim descriptor-table lemmas -/

theorem map_conn_to_fd_next (st : ShimState) (c : Nat) :
    (map_conn_to_fd st c).1.next_fake_fd = st.next_fake_fd + 1 := by
  simp only [map_conn_to_fd]
  split <;> rfl

theorem map_conn_to_fd_fd (st : ShimState) (c : Nat) :
    (map_conn_to_fd st c).2 = st.next_fake_fd := by
  simp only [map_conn_to_fd]
  split <;> rfl

theorem map_conn_to_fd_mappings_of_ne (st : ShimState) (c : Nat) (i : Nat)
    (hne : (i : Int) ≠ st.next_fake_fd) :
    (map_conn_to_fd st c).1.fd_mappings i = st.fd_mappings i := by
  simp only [map_conn_to_fd]
  split
  · rename_i hcond
    have hni : ¬ i = st.next_fake_fd.toNat := by
      intro he
      exact hne (by rw [he]; exact Int.toNat_of_nonneg hcond.1)
    simp [hni]
  · rfl

theorem map_conn_to_fd_mappings_write (st : ShimState) (c : Nat) (n : Nat)
    (hn : st.next_fake_fd = (n : Int)) (h1 : n < 1024) :
    (map_conn_to_fd st c).1.fd_mappings n = c := by
  simp only [map_conn_to_fd]
  rw [if_pos ⟨by rw [hn]; exact_mod_cast Nat.zero_le n, by rw [hn]; exact_mod_cast h1⟩]
  simp [hn]

theorem mapMany_next (st : ShimState) (ids : List Nat) :
    (mapMany st ids).1.next_fake_fd = st.next_fake_fd + ids.length := by
  induction ids generalizing st with
  | nil => simp [mapMany]
  | cons c cs ih =>
      simp only [mapMany]
      rw [ih, map_conn_to_fd_next]
      simp only [List.length_cons]
      push_cast
      ring

theorem mapMany_mappings_low (st : ShimState) (ids : List Nat) (i : Nat)
    (hi : (i : Int) < st.next_fake_fd) :
    (mapMany st ids).1.fd_mappings i = st.fd_mappings i := by
  induction ids generalizing st with
  | nil => rfl
  | cons c cs ih =>
      simp only [mapMany]
      rw [ih _ (by rw [map_conn_to_fd_next]; omega)]
      exact map_conn_to_fd_mappings_of_ne st c i (by omega)

theorem mapMany_fds (st : ShimState) (ids : List Nat) (k : Nat) (hk : k < ids.length) :
    (mapMany st ids).2.getD k 0 = st.next_fake_fd + k := by
  induction ids generalizing st k with
  | nil => simp at hk
  | cons c cs ih =>
      cases k with
      | zero => simp [mapMany, map_conn_to_fd_fd]
      | succ k' =>
          simp only [mapMany, List.getD_cons_succ]
          rw [ih _ _ (by simpa using hk), map_conn_to_fd_next]
          push_cast
          ring

theorem mapMany_slot (st : ShimState) (ids : List Nat) (n k : Nat)
    (hn : st.next_fake_fd = (n : Int)) (hk : k < ids.length) (h1 : n + k < 1024) :
    (mapMany st ids).1.fd_mappings (n + k) = ids.getD k 0 := by
  induction ids generalizing st n k with
  | nil => simp at hk
  | cons c cs ih =>
      cases k with
      | zero =>
          simp only [mapMany, List.getD_cons_zero]
          rw [mapMany_mappings_low _ _ _ (by rw [map_conn_to_fd_next, hn]; push_cast; omega)]
          exact map_conn_to_fd_mappings_write st c (n + 0) (by rw [hn]; push_cast; ring) (by omega)
      | succ k' =>
          simp only [mapMany, List.getD_cons_succ]
          have he : n + (k' + 1) = (n + 1) + k' := by ring
          rw [he]
          exact ih _ _ _ (by rw [map_conn_to_fd_next, hn]; push_cast; ring)
            (by simpa using hk) (by omega)

set_option maxRecDepth 8000 in
/-- C9 counterexample: 25 intercepted socket calls with connection ids
1..25 — the 25th synthesized descriptor is 1024, `get_conn_id` answers 0
(not ours) for it, and no slot of the 1024-entry mapping array holds
connection id 25: that descriptor owns no connection identifier. -/
theorem C9_counterexample :
    (mapMany initShimState ((List.range 25).map (fun i => i + 1))).2.getLast? = some 1024 ∧
    get_conn_id (mapMany initShimState ((List.range 25).map (fun i => i + 1))).1 1024 = 0 ∧
    ((List.range 1024).filter
        (fun i => (mapMany initShimState ((List.range 25).map (fun i => i + 1))).1.fd_mappings i = 25)) = [] :=
  ⟨by decide, by rfl, by decide⟩

/-- C9 (amended): modelling the C `int` counter as unbounded (its 32-bit
overflow is undefined behaviour), the k-th intercepted socket call returns
descriptor 1000+k — at least 1000, strictly increasing, hence all
distinct; but only the first 24 descriptors (1000..1023) record ownership
of their connection id in the 1024-slot array: from the 25th call on the
descriptor is ≥ 1024, nothing is recorded, and `get_conn_id` treats the
descriptor as not intercepted. -/
theorem C9_descriptor_synthesis (ids : List Nat) (k : Nat) (hk : k < ids.length) :
    (mapMany initShimState ids).2.getD k 0 = 1000 + (k : Int) ∧
    (1000 : Int) ≤ (mapMany initShimState ids).2.getD k 0 ∧
    (∀ j, j < ids.length → j ≠ k →
      (mapMany initShimState ids).2.getD j 0 ≠ (mapMany initShimState ids).2.getD k 0) ∧
    (k < 24 → get_conn_id (mapMany initShimState ids).1 (1000 + (k : Int)) = ids.getD k 0) ∧
    (24 ≤ k → get_conn_id (mapMany initShimState ids).1 (1000 + (k : Int)) = 0) := by
  have hf := mapMany_fds initShimState ids k hk
  have hinit : initShimState.next_fake_fd = (1000 : Int) := rfl
  rw [hinit] at hf
  refine ⟨hf, by rw [hf]; omega, fun j hj hjk => ?_, fun hk24 => ?_, fun hk24 => ?_⟩
  · have hfj := mapMany_fds initShimState ids j hj
    rw [hinit] at hfj
    rw [hf, hfj]
    intro he
    exact hjk (by omega)
  · have hguard : ¬ (1000 + (k : Int) < 1000 ∨ 1024 ≤ 1000 + (k : Int)) := by omega
    rw [get_conn_id, if_neg hguard]
    have htn : (1000 + (k : Int)).toNat = 1000 + k := by omega
    rw [htn]
    exact mapMany_slot initShimState ids 1000 k hinit hk (by omega)
  · have hguard : 1000 + (k : Int) < 1000 ∨ 1024 ≤ 1000 + (k : Int) := by omega
    rw [get_conn_id, if_pos hguard]

/-- C9 witness: the amended theorem at the 25th of 25 calls — descriptor
1024, distinct from the other 24, owning no connection id. -/
theorem C9_descriptor_synthesis_witness :
    (mapMany initShimState ((List.range 25).map (fun i => i + 1))).2.getD 24 0 = 1000 + (24 : Int) ∧
    (1000 : Int) ≤ (mapMany initShimState ((List.range 25).map (fun i => i + 1))).2.getD 24 0 ∧
    (∀ j, j < ((List.range 25).map (fun i => i + 1)).length → j ≠ 24 →
      (mapMany initShimState ((List.range 25).map (fun i => i + 1))).2.getD j 0 ≠
        (mapMany initShimState ((List.range 25).map (fun i => i + 1))).2.getD 24 0) ∧
    (24 < 24 → get_conn_id (mapMany initShimState ((List.range 25).map (fun i => i + 1))).1
        (1000 + (24 : Int)) = ((List.range 25).map (fun i => i + 1)).getD 24 0) ∧
    (24 ≤ 24 → get_conn_id (mapMany initShimState ((List.range 25).map (fun i => i + 1))).1
        (1000 + (24 : Int)) = 0) :=
  C9_descriptor_synthesis ((List.range 25).map (fun i => i + 1)) 24 (by decide)

/-! ## Routing-engine maximality lemmas -/

theorem lexLE_refl (a : Int × Int) : lexLE a a := Or.inr ⟨rfl, le_refl _⟩

theorem lexLE_trans {a b c : Int × Int} (h1 : lexLE a b) (h2 : lexLE b c) : lexLE a c := by
  rcases h1 with h1 | ⟨h1, h1'⟩ <;> rcases h2 with h2 | ⟨h2, h2'⟩ <;>
    simp only [lexLE] <;> omega

/-- One `scanPolicy` step: the accumulator is unchanged or becomes the
policy's own triple; it never lexicographically decreases; and after the
step it dominates this policy if the policy is acceptable. -/
theorem scanPolicy_step (cidr : Cidr) (spec : Int) (j : Nat) (protocol : String)
    (dstPort : Int) (b : Int × Int × Int) (p : RoutingPolicy) :
    (scanPolicy cidr spec j protocol dstPort b p = b ∨
      (policyAcceptable p cidr protocol dstPort = true ∧
        scanPolicy cidr spec j protocol dstPort b p = ((j : Int), p.priority, spec))) ∧
    lexLE (b.2.2, b.2.1)
      ((scanPolicy cidr spec j protocol dstPort b p).2.2,
       (scanPolicy cidr spec j protocol dstPort b p).2.1) ∧
    (policyAcceptable p cidr protocol dstPort = true →
      lexLE (spec, p.priority)
        ((scanPolicy cidr spec j protocol dstPort b p).2.2,
         (scanPolicy cidr spec j protocol dstPort b p).2.1)) := by
  simp only [scanPolicy]
  by_cases hacc : policyAcceptable p cidr protocol dstPort = true
  · rw [if_pos hacc]
    by_cases hcond :
        (decide (spec > b.2.2) || (decide (spec = b.2.2) && decide (p.priority > b.2.1))) = true
    · rw [if_pos hcond]
      simp only [Bool.or_eq_true, Bool.and_eq_true, decide_eq_true_eq] at hcond
      exact ⟨Or.inr ⟨hacc, rfl⟩, by simp only [lexLE]; omega, fun _ => lexLE_refl _⟩
    · rw [if_neg hcond]
      simp only [Bool.or_eq_true, Bool.and_eq_true, decide_eq_true_eq] at hcond
      exact ⟨Or.inl rfl, lexLE_refl _, fun _ => by simp only [lexLE]; omega⟩
  · rw [if_neg hacc]
    exact ⟨Or.inl rfl, lexLE_refl _, fun h => absurd h hacc⟩

/-- Folding `scanPolicy` over a policy list: soundness (the result is the
start value or an acceptable policy's triple), dominance over every
acceptable policy, and lexicographic monotonicity. -/
theorem scanPolicy_foldl_spec (cidr : Cidr) (spec : Int) (j : Nat) (protocol : String)
    (dstPort : Int) (policies : List RoutingPolicy) (b : Int × Int × Int) :
    (policies.foldl (scanPolicy cidr spec j protocol dstPort) b = b ∨
      ∃ policy ∈ policies, policyAcceptable policy cidr protocol dstPort = true ∧
        policies.foldl (scanPolicy cidr spec j protocol dstPort) b =
          ((j : Int), policy.priority, spec)) ∧
    (∀ policy ∈ policies, policyAcceptable policy cidr protocol dstPort = true →
      lexLE (spec, policy.priority)
        ((policies.foldl (scanPolicy cidr spec j protocol dstPort) b).2.2,
         (policies.foldl (scanPolicy cidr spec j protocol dstPort) b).2.1)) ∧
    lexLE (b.2.2, b.2.1)
      ((policies.foldl (scanPolicy cidr spec j protocol dstPort) b).2.2,
       (policies.foldl (scanPolicy cidr spec j protocol dstPort) b).2.1) := by
  induction policies generalizing b with
  | nil => exact ⟨Or.inl rfl, by simp, lexLE_refl _⟩
  | cons p ps ih =>
      obtain ⟨hstep, hmono, hdom⟩ := scanPolicy_step cidr spec j protocol dstPort b p
      obtain ⟨ih1, ih2, ih3⟩ := ih (scanPolicy cidr spec j protocol dstPort b p)
      simp only [List.foldl_cons]
      refine ⟨?_, ?_, lexLE_trans hmono ih3⟩
      · rcases ih1 with h | ⟨policy, hmem, hacc, heq⟩
        · rw [h]
          rcases hstep with h' | ⟨hacc, h'⟩
          · exact Or.inl h'
          · exact Or.inr ⟨p, List.mem_cons_self _ _, hacc, h'⟩
        · exact Or.inr ⟨policy, List.mem_cons_of_mem _ hmem, hacc, heq⟩
      · intro policy hmem hacc
        rcases List.mem_cons.mp hmem with rfl | hmem'
        · exact lexLE_trans (hdom hacc) ih3
        · exact ih2 policy hmem' hacc

/-- One `scanPeerIdx` step: like `scanPolicy_step`, at the granularity of
one peer index of a route-table entry. -/
theorem scanPeerIdx_step (peers : List PeerConfig) (cidr : Cidr) (spec : Int)
    (protocol : String) (dstPort : Int) (b : Int × Int × Int) (idx : Nat) :
    (scanPeerIdx peers cidr spec protocol dstPort b idx = b ∨
      ∃ peer, peers[idx]? = some peer ∧
        ∃ policy ∈ peer.routingPolicies, policyAcceptable policy cidr protocol dstPort = true ∧
          scanPeerIdx peers cidr spec protocol dstPort b idx = ((idx : Int), policy.priority, spec)) ∧
    (∀ peer, peers[idx]? = some peer →
      ∀ policy ∈ peer.routingPolicies, policyAcceptable policy cidr protocol dstPort = true →
        lexLE (spec, policy.priority)
          ((scanPeerIdx peers cidr spec protocol dstPort b idx).2.2,
           (scanPeerIdx peers cidr spec protocol dstPort b idx).2.1)) ∧
    lexLE (b.2.2, b.2.1)
      ((scanPeerIdx peers cidr spec protocol dstPort b idx).2.2,
       (scanPeerIdx peers cidr spec protocol dstPort b idx).2.1) := by
  cases hp : peers[idx]? with
  | none =>
      simp only [scanPeerIdx, hp]
      refine ⟨Or.inl trivial, fun peer h => ?_, lexLE_refl _⟩
      exact Option.noConfusion h
  | some peer =>
      simp only [scanPeerIdx, hp]
      obtain ⟨h1, h2, h3⟩ := scanPolicy_foldl_spec cidr spec idx protocol dstPort
        peer.routingPolicies b
      refine ⟨?_, ?_, h3⟩
      · rcases h1 with h | ⟨policy, hmem, hacc, heq⟩
        · exact Or.inl h
        · exact Or.inr ⟨peer, rfl, policy, hmem, hacc, heq⟩
      · intro peer' hp' policy hmem hacc
        injection hp' with hp'
        subst hp'
        exact h2 policy hmem hacc

/-- Folding `scanPeerIdx` over the peer indices of one route-table entry:
soundness, dominance over every acceptable policy of every listed peer, and
monotonicity. -/
theorem scanPeerIdx_foldl_spec (peers : List PeerConfig) (cidr : Cidr) (spec : Int)
    (protocol : String) (dstPort : Int) (idxs : List Nat) (b : Int × Int × Int) :
    (idxs.foldl (scanPeerIdx peers cidr spec protocol dstPort) b = b ∨
      ∃ idx ∈ idxs, ∃ peer, peers[idx]? = some peer ∧
        ∃ policy ∈ peer.routingPolicies, policyAcceptable policy cidr protocol dstPort = true ∧
          idxs.foldl (scanPeerIdx peers cidr spec protocol dstPort) b =
            ((idx : Int), policy.priority, spec)) ∧
    (∀ idx ∈ idxs, ∀ peer, peers[idx]? = some peer →
      ∀ policy ∈ peer.routingPolicies, policyAcceptable policy cidr protocol dstPort = true →
        lexLE (spec, policy.priority)
          ((idxs.foldl (scanPeerIdx peers cidr spec protocol dstPort) b).2.2,
           (idxs.foldl (scanPeerIdx peers cidr spec protocol dstPort) b).2.1)) ∧
    lexLE (b.2.2, b.2.1)
      ((idxs.foldl (scanPeerIdx peers cidr spec protocol dstPort) b).2.2,
       (idxs.foldl (scanPeerIdx peers cidr spec protocol dstPort) b).2.1) := by
  induction idxs generalizing b with
  | nil => exact ⟨Or.inl rfl, by simp, lexLE_refl _⟩
  | cons idx idxs ih =>
      obtain ⟨hstep, hdom, hmono⟩ := scanPeerIdx_step peers cidr spec protocol dstPort b idx
      obtain ⟨ih1, ih2, ih3⟩ := ih (scanPeerIdx peers cidr spec protocol dstPort b idx)
      simp only [List.foldl_cons]
      refine ⟨?_, ?_, lexLE_trans hmono ih3⟩
      · rcases ih1 with h | ⟨idx', hmem, peer, hp, policy, hpm, hacc, heq⟩
        · rw [h]
          rcases hstep with h' | ⟨peer, hp, policy, hpm, hacc, h'⟩
          · exact Or.inl h'
          · exact Or.inr ⟨idx, List.mem_cons_self _ _, peer, hp, policy, hpm, hacc, h'⟩
        · exact Or.inr ⟨idx', List.mem_cons_of_mem _ hmem, peer, hp, policy, hpm, hacc, heq⟩
      · intro idx' hmem peer hp policy hpm hacc
        rcases List.mem_cons.mp hmem with rfl | hmem'
        · exact lexLE_trans (hdom peer hp policy hpm hacc) ih3
        · exact ih2 idx' hmem' peer hp policy hpm hacc

/-- One `scanEntry` step, phrased through `EntryMatch`. -/
theorem scanEntry_step (peers : List PeerConfig) (dstIP : IPv4) (protocol : String)
    (dstPort : Int) (b : Int × Int × Int) (entry : Cidr × List Nat) :
    (scanEntry peers dstIP protocol dstPort b entry = b ∨
      ∃ j prio, EntryMatch peers dstIP dstPort protocol entry j prio ∧
        scanEntry peers dstIP protocol dstPort b entry =
          ((j : Int), prio, (entry.1.bits : Int))) ∧
    (∀ j prio, EntryMatch peers dstIP dstPort protocol entry j prio →
      lexLE ((entry.1.bits : Int), prio)
        ((scanEntry peers dstIP protocol dstPort b entry).2.2,
         (scanEntry peers dstIP protocol dstPort b entry).2.1)) ∧
    lexLE (b.2.2, b.2.1)
      ((scanEntry peers dstIP protocol dstPort b entry).2.2,
       (scanEntry peers dstIP protocol dstPort b entry).2.1) := by
  by_cases hc : entry.1.containsAddr dstIP = true
  · simp only [scanEntry, hc, if_true]
    obtain ⟨h1, h2, h3⟩ := scanPeerIdx_foldl_spec peers entry.1 (entry.1.bits : Int)
      protocol dstPort entry.2 b
    refine ⟨?_, ?_, h3⟩
    · rcases h1 with h | ⟨idx, hmem, peer, hp, policy, hpm, hacc, heq⟩
      · exact Or.inl h
      · exact Or.inr ⟨idx, policy.priority, ⟨hc, hmem, peer, hp, policy, hpm, hacc, rfl⟩, heq⟩
    · rintro j prio ⟨-, hmem, peer, hp, policy, hpm, hacc, rfl⟩
      exact h2 j hmem peer hp policy hpm hacc
  · simp only [scanEntry, hc, if_false]
    refine ⟨Or.inl rfl, ?_, lexLE_refl _⟩
    rintro j prio ⟨hc', -⟩
    exact absurd hc' hc

/-- Folding `scanEntry` over the whole route table: the resulting best
triple is sound (the initial accumulator or an actual match), dominates
every match in the table, and never decreases. -/
theorem scanEntries_foldl_spec (peers : List PeerConfig) (dstIP : IPv4) (protocol : String)
    (dstPort : Int) (rt : List (Cidr × List Nat)) (b : Int × Int × Int) :
    (rt.foldl (scanEntry peers dstIP protocol dstPort) b = b ∨
      ∃ j prio spec, PolicyMatchIn peers rt dstIP dstPort protocol j prio spec ∧
        rt.foldl (scanEntry peers dstIP protocol dstPort) b = ((j : Int), prio, spec)) ∧
    (∀ j prio spec, PolicyMatchIn peers rt dstIP dstPort protocol j prio spec →
      lexLE (spec, prio)
        ((rt.foldl (scanEntry peers dstIP protocol dstPort) b).2.2,
         (rt.foldl (scanEntry peers dstIP protocol dstPort) b).2.1)) ∧
    lexLE (b.2.2, b.2.1)
      ((rt.foldl (scanEntry peers dstIP protocol dstPort) b).2.2,
       (rt.foldl (scanEntry peers dstIP protocol dstPort) b).2.1) := by
  induction rt generalizing b with
  | nil =>
      refine ⟨Or.inl rfl, ?_, lexLE_refl _⟩
      rintro j prio spec ⟨entry, hmem, -⟩
      simp at hmem
  | cons e rest ih =>
      obtain ⟨hstep, hdom, hmono⟩ := scanEntry_step peers dstIP protocol dstPort b e
      obtain ⟨ih1, ih2, ih3⟩ := ih (scanEntry peers dstIP protocol dstPort b e)
      simp only [List.foldl_cons]
      refine ⟨?_, ?_, lexLE_trans hmono ih3⟩
      · rcases ih1 with h | ⟨j, prio, spec, ⟨entry, hmem, hmatch1, hspec⟩, heq⟩
        · rw [h]
          rcases hstep with h' | ⟨j, prio, hem, h'⟩
          · exact Or.inl h'
          · exact Or.inr ⟨j, prio, (e.1.bits : Int),
              ⟨e, List.mem_cons_self _ _, hem, rfl⟩, h'⟩
        · exact Or.inr ⟨j, prio, spec, ⟨entry, List.mem_cons_of_mem _ hmem, hmatch1, hspec⟩, heq⟩
      · rintro j prio spec ⟨entry, hmem, hem, hspec⟩
        rcases List.mem_cons.mp hmem with rfl | hmem'
        · subst hspec
          exact lexLE_trans (hdom j prio hem) ih3
        · exact ih2 j prio spec ⟨entry, hmem', hem, hspec⟩

/-- Every match's specificity is a prefix bit count, hence nonnegative. -/
theorem PolicyMatchIn_spec_nonneg {peers : List PeerConfig} {rt : List (Cidr × List Nat)}
    {dstIP : IPv4} {dstPort : Int} {protocol : String} {j : Nat} {prio spec : Int}
    (h : PolicyMatchIn peers rt dstIP dstPort protocol j prio spec) : 0 ≤ spec := by
  obtain ⟨entry, -, -, hspec⟩ := h
  rw [hspec]
  exact Int.natCast_nonneg _

/-- A successful `AllowedIPs` fallback names a peer one of whose prefixes
contains the destination. -/
theorem firstAllowed_mem (ai : List (Nat × List Cidr)) (dstIP : IPv4) (j : Nat)
    (h : firstAllowed ai dstIP = some j) :
    ∃ prefixes, (j, prefixes) ∈ ai ∧ ∃ c ∈ prefixes, c.containsAddr dstIP = true := by
  induction ai with
  | nil => simp [firstAllowed] at h
  | cons e rest ih =>
      obtain ⟨idx, ps⟩ := e
      by_cases hc : ps.any (fun p => p.containsAddr dstIP) = true
      · rw [firstAllowed, if_pos hc] at h
        injection h with h
        subst h
        obtain ⟨c, hcm, hcc⟩ := List.any_eq_true.mp hc
        exact ⟨ps, List.mem_cons_self _ _, c, hcm, hcc⟩
      · rw [firstAllowed, if_neg hc] at h
        obtain ⟨ps', hmem, hex⟩ := ih h
        exact ⟨ps', List.mem_cons_of_mem _ hmem, hex⟩

/-- C1 counterexample: Go map iteration order is unspecified, and the code
ranges over maps. (a) Under a legitimate enumeration of the `allowedIPs`
map that visits P2 first, the fallback lookup `(192.168.1.100, tcp, 22)` of
section 8 returns P2 (index 1), not P1 (index 0) as the claim demands.
(b) Two policies tying on (prefix_bits, priority) under different CIDR
keys: a legitimate route-table enumeration returns the later-inserted
policy's peer (index 1), violating tie-breaking by insertion order (peer
0's policy was inserted first). -/
theorem C1_counterexample :
    List.Perm aiSwapped (buildAllowedIPs demoPeers) ∧
    findPeerForDestination demoPeers (buildRouteTable demoPeers) aiSwapped
      (mkIP 192 168 1 100) 22 "tcp" = some 1 ∧
    List.Perm tieRtSwapped (buildRouteTable tiePeers) ∧
    findPeerForDestination tiePeers tieRtSwapped (buildAllowedIPs tiePeers)
      (mkIP 1 2 3 4) 80 "tcp" = some 1 ∧
    ¬ (some 1 : Option Nat) = some 0 :=
  ⟨by decide, by decide, by decide, by decide, by decide⟩

/-- C1 (amended): when the lookup returns a peer found through the policy
phase, that peer has a matching policy whose (prefix_bits, declared
priority) pair is lexicographically maximal among all matches — ties are
resolved by the engine's unspecified map iteration order, first encountered
wins, not by insertion order; when no policy matches, the returned peer is
one whose allowed prefixes contain the destination, again chosen by map
iteration order; with neither, no-route. For the three-peer configuration
of section 8, under every iteration order of the two maps, the six listed
lookups return P1, P2, P2, P3, P1-or-P2 (order-dependent), P1. -/
theorem C1_routing_lookup (peers : List PeerConfig) (rt : List (Cidr × List Nat))
    (ai : List (Nat × List Cidr)) (dstIP : IPv4) (dstPort : Int) (protocol : String) :
    (∀ j, findPeerForDestination peers rt ai dstIP dstPort protocol = some j →
      (∃ prio spec, PolicyMatchIn peers rt dstIP dstPort protocol j prio spec ∧
        ∀ j' prio' spec', PolicyMatchIn peers rt dstIP dstPort protocol j' prio' spec' →
          lexLE (spec', prio') (spec, prio)) ∨
      ((∀ j' prio' spec', ¬ PolicyMatchIn peers rt dstIP dstPort protocol j' prio' spec') ∧
        firstAllowed ai dstIP = some j ∧
        ∃ prefixes, (j, prefixes) ∈ ai ∧ ∃ c ∈ prefixes, c.containsAddr dstIP = true)) ∧
    (findPeerForDestination peers rt ai dstIP dstPort protocol = none →
      (∀ j' prio' spec', ¬ PolicyMatchIn peers rt dstIP dstPort protocol j' prio' spec') ∧
      firstAllowed ai dstIP = none) ∧
    (∀ rt' ai', List.Perm rt' (buildRouteTable demoPeers) →
      List.Perm ai' (buildAllowedIPs demoPeers) →
      findPeerForDestination demoPeers rt' ai' (mkIP 8 8 8 8) 53 "udp" = some 0 ∧
      findPeerForDestination demoPeers rt' ai' (mkIP 192 168 1 100) 80 "tcp" = some 1 ∧
      findPeerForDestination demoPeers rt' ai' (mkIP 1 2 3 4) 8080 "tcp" = some 1 ∧
      findPeerForDestination demoPeers rt' ai' (mkIP 10 1 2 3) 3000 "tcp" = some 2 ∧
      (findPeerForDestination demoPeers rt' ai' (mkIP 192 168 1 100) 22 "tcp" = some 0 ∨
        findPeerForDestination demoPeers rt' ai' (mkIP 192 168 1 100) 22 "tcp" = some 1) ∧
      findPeerForDestination demoPeers rt' ai' (mkIP 1 2 3 4) 8080 "udp" = some 0) := by
  obtain ⟨hs, hd, -⟩ := scanEntries_foldl_spec peers dstIP protocol dstPort rt (-1, -1, -1)
  have hnomatch : (rt.foldl (scanEntry peers dstIP protocol dstPort) (-1, -1, -1)).1 < 0 →
      ∀ j' prio' spec', ¬ PolicyMatchIn peers rt dstIP dstPort protocol j' prio' spec' := by
    intro hlt j' prio' spec' hm'
    rcases hs with h | ⟨j0, prio, spec, hmatch, heq⟩
    · have hdom := hd j' prio' spec' hm'
      have hspec := PolicyMatchIn_spec_nonneg hm'
      rw [h] at hdom
      simp only [lexLE] at hdom
      omega
    · rw [heq] at hlt
      have h0 : (0 : Int) ≤ (j0 : Int) := Int.natCast_nonneg j0
      omega
  refine ⟨fun j hj => ?_, fun hn => ?_, ?_⟩
  · simp only [findPeerForDestination] at hj
    by_cases hge : (rt.foldl (scanEntry peers dstIP protocol dstPort) (-1, -1, -1)).1 ≥ 0
    · rw [if_pos hge] at hj
      injection hj with hj
      rcases hs with h | ⟨j0, prio, spec, hmatch, heq⟩
      · rw [h] at hge
        norm_num at hge
      · left
        refine ⟨prio, spec, ?_, fun j' p' s' hm' => ?_⟩
        · rw [heq] at hj
          simp only [Int.toNat_natCast] at hj
          rw [← hj]
          exact hmatch
        · have := hd j' p' s' hm'
          rw [heq] at this
          exact this
    · rw [if_neg hge] at hj
      exact Or.inr ⟨hnomatch (by omega), hj, firstAllowed_mem ai dstIP j hj⟩
  · simp only [findPeerForDestination] at hn
    by_cases hge : (rt.foldl (scanEntry peers dstIP protocol dstPort) (-1, -1, -1)).1 ≥ 0
    · rw [if_pos hge] at hn
      exact Option.noConfusion hn
    · rw [if_neg hge] at hn
      exact ⟨hnomatch (by omega), hn⟩
  · have hdec : ∀ rt' ∈ (buildRouteTable demoPeers).permutations',
        ∀ ai' ∈ (buildAllowedIPs demoPeers).permutations',
        findPeerForDestination demoPeers rt' ai' (mkIP 8 8 8 8) 53 "udp" = some 0 ∧
        findPeerForDestination demoPeers rt' ai' (mkIP 192 168 1 100) 80 "tcp" = some 1 ∧
        findPeerForDestination demoPeers rt' ai' (mkIP 1 2 3 4) 8080 "tcp" = some 1 ∧
        findPeerForDestination demoPeers rt' ai' (mkIP 10 1 2 3) 3000 "tcp" = some 2 ∧
        (findPeerForDestination demoPeers rt' ai' (mkIP 192 168 1 100) 22 "tcp" = some 0 ∨
          findPeerForDestination demoPeers rt' ai' (mkIP 192 168 1 100) 22 "tcp" = some 1) ∧
        findPeerForDestination demoPeers rt' ai' (mkIP 1 2 3 4) 8080 "udp" = some 0 := by
      decide
    intro rt' ai' h1 h2
    exact hdec rt' (List.mem_permutations'.mpr h1) ai' (List.mem_permutations'.mpr h2)

/-- C1 witness: the maximality clause applied to the canonical-order
section-8 lookup `(192.168.1.100, tcp, 80)`, which returns peer 1 (P2). -/
theorem C1_routing_lookup_witness :
    (∃ prio spec, PolicyMatchIn demoPeers (buildRouteTable demoPeers)
        (mkIP 192 168 1 100) 80 "tcp" 1 prio spec ∧
      ∀ j' prio' spec', PolicyMatchIn demoPeers (buildRouteTable demoPeers)
          (mkIP 192 168 1 100) 80 "tcp" j' prio' spec' →
        lexLE (spec', prio') (spec, prio)) ∨
    ((∀ j' prio' spec', ¬ PolicyMatchIn demoPeers (buildRouteTable demoPeers)
        (mkIP 192 168 1 100) 80 "tcp" j' prio' spec') ∧
      firstAllowed (buildAllowedIPs demoPeers) (mkIP 192 168 1 100) = some 1 ∧
      ∃ prefixes, (1, prefixes) ∈ buildAllowedIPs demoPeers ∧
        ∃ c ∈ prefixes, c.containsAddr (mkIP 192 168 1 100) = true) :=
  (C1_routing_lookup demoPeers (buildRouteTable demoPeers) (buildAllowedIPs demoPeers)
    (mkIP 192 168 1 100) 80 "tcp").1 1 (by decide)

end Wrapguard
